import Mathlib

set_option maxHeartbeats 1600000

/-!
Verification development for the ARP workflow client: the chat session
controller (`src/arp/sessionController.ts`) and the remote protocol client
(`src/arp/apiClient.ts`).  The TypeScript source is shallowly embedded:
strings are Lean `String`s (logically lists of characters), JavaScript
`null`/`undefined` fields become `Option`, remote calls and the process
spawner become explicit parameters or event payloads, and path arithmetic
follows POSIX `path.resolve` semantics (the runtime the source targets).
-/

namespace Arp

/-! ## String primitives mirroring the JavaScript string operations used by the source -/

/-- Both-ends whitespace trim on character lists, mirroring `String.prototype.trim`. -/
def trimChars (cs : List Char) : List Char :=
  ((cs.dropWhile Char.isWhitespace).reverse.dropWhile Char.isWhitespace).reverse

/-- `s.trim()` of JavaScript. -/
def strTrim (s : String) : String := ⟨trimChars s.data⟩

/-- `s.toLowerCase()` of JavaScript (ASCII-faithful). -/
def strLower (s : String) : String := ⟨s.data.map Char.toLower⟩

/-- `s.toUpperCase()` of JavaScript (ASCII-faithful). -/
def strUpper (s : String) : String := ⟨s.data.map Char.toUpper⟩

/-- `s.slice(0, n)` of JavaScript. -/
def strTake (s : String) (n : Nat) : String := ⟨s.data.take n⟩

/-- Substring occurrence test on character lists (`String.prototype.includes`). -/
def charsContains : List Char → List Char → Bool
  | [], needle => needle.isEmpty
  | h :: t, needle => needle.isPrefixOf (h :: t) || charsContains t needle

/-- `s.includes(pat)` of JavaScript. -/
def strContains (s pat : String) : Bool := charsContains s.data pat.data

/-- JavaScript truthiness on an optional string: `undefined`, `null` and `""` are falsy. -/
def jsTruthy : Option String → Option String
  | some s => if s = "" then none else some s
  | none => none

/-- `o || dflt` for an optional string `o` and a string default. -/
def jsOr (o : Option String) (dflt : String) : String := (jsTruthy o).getD dflt

/-! ## POSIX path model

`path.resolve` joins its arguments from the right until an absolute path is
found (falling back to the process working directory), then normalizes the
result: empty and `.` segments are dropped, `..` pops the previous segment
(and is dropped at the root).  We model exactly this on character lists. -/

/-- Split a character list on `'/'`. The result is never empty. -/
def splitSlash : List Char → List (List Char)
  | [] => [[]]
  | c :: cs =>
    if c = '/' then [] :: splitSlash cs
    else
      match splitSlash cs with
      | [] => [[c]]
      | s :: rest => (c :: s) :: rest

/-- Normalization of the segment list of an absolute path: drop empty and `.`
segments, let `..` pop the previous segment (no-op at the root). -/
def normSegs (parts : List (List Char)) : List (List Char) :=
  parts.foldl (fun acc seg =>
    if seg = [] then acc
    else if seg = ['.'] then acc
    else if seg = ['.', '.'] then acc.dropLast
    else acc ++ [seg]) []

/-- Join segments with `'/'`. -/
def interSlash : List (List Char) → List Char
  | [] => []
  | [s] => s
  | s :: rest => s ++ '/' :: interSlash rest

/-- Render an absolute path from its normalized segments. -/
def renderAbs (segs : List (List Char)) : List Char := '/' :: interSlash segs

/-- Normalize a character list as an absolute path. -/
def normAbsChars (cs : List Char) : List Char := renderAbs (normSegs (splitSlash cs))

/-- The normalized segment list of a path string. -/
def pathSegs (s : String) : List (List Char) := normSegs (splitSlash s.data)

/-- `path.isAbsolute` on POSIX: starts with `'/'`. -/
def isAbsolute (s : String) : Bool :=
  match s.data with
  | '/' :: _ => true
  | _ => false

/-- `path.resolve(p)` with host process working directory `hostCwd`. -/
def resolve1 (hostCwd p : String) : String :=
  if isAbsolute p then ⟨normAbsChars p.data⟩
  else ⟨normAbsChars (hostCwd.data ++ '/' :: p.data)⟩

/-- `path.resolve(a, b)` with host process working directory `hostCwd`. -/
def resolve2 (hostCwd a b : String) : String :=
  if isAbsolute b then ⟨normAbsChars b.data⟩
  else if isAbsolute a then ⟨normAbsChars (a.data ++ '/' :: b.data)⟩
  else ⟨normAbsChars (hostCwd.data ++ '/' :: a.data ++ '/' :: b.data)⟩

/-- `isWithin` of the session controller: the resolved path equals the resolved
`cwd` or starts with it followed by a separator. -/
def isWithin (hostCwd path cwd : String) : Bool :=
  let np := resolve1 hostCwd path
  let nc := resolve1 hostCwd cwd
  np == nc || (nc.data ++ ['/']).isPrefixOf np.data

/-! ### Path lemmas -/

/-- A segment produced by normalization is nonempty, is not `.` or `..`, and
contains no separator. -/
def goodSeg (seg : List Char) : Prop :=
  seg ≠ [] ∧ seg ≠ ['.'] ∧ seg ≠ ['.', '.'] ∧ '/' ∉ seg

theorem splitSlash_ne_nil (cs : List Char) : splitSlash cs ≠ [] := by
  induction cs with
  | nil => simp [splitSlash]
  | cons c cs ih =>
    simp only [splitSlash]
    split
    · simp
    · cases h : splitSlash cs with
      | nil => simp
      | cons s rest => simp

theorem mem_splitSlash_no_slash (cs : List Char) :
    ∀ seg ∈ splitSlash cs, '/' ∉ seg := by
  induction cs with
  | nil => intro seg h; simp [splitSlash] at h; simp [h]
  | cons c cs ih =>
    intro seg h
    simp only [splitSlash] at h
    by_cases hc : c = '/'
    · simp [hc] at h
      rcases h with h | h
      · simp [h]
      · exact ih seg h
    · simp [hc] at h
      cases hs : splitSlash cs with
      | nil => exact absurd hs (splitSlash_ne_nil cs)
      | cons s rest =>
        rw [hs] at h
        simp at h
        rcases h with h | h
        · subst h
          intro hmem
          simp at hmem
          rcases hmem with h1 | h1
          · exact hc h1.symm
          · exact ih s (by rw [hs]; exact List.mem_cons_self ..) h1
        · exact ih seg (by rw [hs]; exact List.mem_cons_of_mem _ h)

theorem normSegs_aux_good (parts : List (List Char)) (acc : List (List Char))
    (hacc : ∀ s ∈ acc, goodSeg s) (hparts : ∀ s ∈ parts, '/' ∉ s) :
    ∀ seg ∈ parts.foldl (fun acc seg =>
      if seg = [] then acc
      else if seg = ['.'] then acc
      else if seg = ['.', '.'] then acc.dropLast
      else acc ++ [seg]) acc, goodSeg seg := by
  induction parts generalizing acc with
  | nil => intro seg h; exact hacc seg h
  | cons p ps ih =>
    intro seg h
    simp only [List.foldl_cons] at h
    have hps : ∀ s ∈ ps, '/' ∉ s := fun s hs => hparts s (List.mem_cons_of_mem _ hs)
    by_cases h1 : p = []
    · simp [h1] at h; exact ih acc hacc hps seg h
    · by_cases h2 : p = ['.']
      · simp [h1, h2] at h; exact ih acc hacc hps seg h
      · by_cases h3 : p = ['.', '.']
        · simp [h1, h2, h3] at h
          refine ih acc.dropLast (fun s hs => hacc s ?_) hps seg h
          exact List.dropLast_subset _ hs
        · simp [h1, h2, h3] at h
          refine ih (acc ++ [p]) (fun s hs => ?_) hps seg h
          rcases List.mem_append.mp hs with hs | hs
          · exact hacc s hs
          · simp at hs
            subst hs
            exact ⟨h1, h2, h3, hparts s (List.mem_cons_self ..)⟩

theorem mem_normSegs_good (parts : List (List Char))
    (hparts : ∀ s ∈ parts, '/' ∉ s) :
    ∀ seg ∈ normSegs parts, goodSeg seg := by
  have := normSegs_aux_good parts [] (by simp) hparts
  simpa [normSegs] using this

theorem pathSegs_good (s : String) : ∀ seg ∈ pathSegs s, goodSeg seg :=
  mem_normSegs_good _ (mem_splitSlash_no_slash _)

theorem splitSlash_append_no_slash (s t : List Char) (hs : '/' ∉ s) :
    splitSlash (s ++ t) =
      match splitSlash t with
      | [] => [s]
      | u :: rest => (s ++ u) :: rest := by
  induction s with
  | nil =>
    cases h : splitSlash t with
    | nil => exact absurd h (splitSlash_ne_nil t)
    | cons u rest => simp [h]
  | cons c cs ih =>
    have hc : c ≠ '/' := by intro h; exact hs (by simp [h])
    have hcs : '/' ∉ cs := fun h => hs (List.mem_cons_of_mem _ h)
    cases h : splitSlash t with
    | nil => exact absurd h (splitSlash_ne_nil t)
    | cons u rest =>
      simp only [List.cons_append, splitSlash, hc, if_false, List.append_eq]
      rw [ih hcs, h]

theorem splitSlash_interSlash (segs : List (List Char)) (hne : segs ≠ [])
    (hgood : ∀ s ∈ segs, '/' ∉ s) :
    splitSlash (interSlash segs) = segs := by
  induction segs with
  | nil => exact absurd rfl hne
  | cons s rest ih =>
    cases rest with
    | nil =>
      have hs : '/' ∉ s := hgood s (List.mem_cons_self ..)
      have := splitSlash_append_no_slash s [] hs
      simpa [interSlash, splitSlash] using this
    | cons s2 rest2 =>
      have hs : '/' ∉ s := hgood s (List.mem_cons_self ..)
      have hrest : ∀ x ∈ s2 :: rest2, '/' ∉ x := fun x hx =>
        hgood x (List.mem_cons_of_mem _ hx)
      have hsplit : splitSlash ('/' :: interSlash (s2 :: rest2)) =
          [] :: splitSlash (interSlash (s2 :: rest2)) := by
        simp [splitSlash]
      have h2 := splitSlash_append_no_slash s ('/' :: interSlash (s2 :: rest2)) hs
      have h3 : interSlash (s :: s2 :: rest2) = s ++ '/' :: interSlash (s2 :: rest2) := rfl
      rw [h3, h2, hsplit, ih (List.cons_ne_nil _ _) hrest]
      simp

theorem normSegs_aux_already (segs : List (List Char)) (acc : List (List Char))
    (hgood : ∀ s ∈ segs, goodSeg s) :
    segs.foldl (fun acc seg =>
      if seg = [] then acc
      else if seg = ['.'] then acc
      else if seg = ['.', '.'] then acc.dropLast
      else acc ++ [seg]) acc = acc ++ segs := by
  induction segs generalizing acc with
  | nil => simp
  | cons p ps ih =>
    have hp : goodSeg p := hgood p (List.mem_cons_self ..)
    have hps : ∀ s ∈ ps, goodSeg s := fun s hs => hgood s (List.mem_cons_of_mem _ hs)
    simp only [List.foldl_cons, hp.1, hp.2.1, hp.2.2.1, if_false]
    rw [ih (acc ++ [p]) hps]
    simp

/-- Round trip: parsing a rendered normalized path gives back its segments. -/
theorem pathSegs_renderAbs (segs : List (List Char)) (hgood : ∀ s ∈ segs, goodSeg s) :
    pathSegs ⟨renderAbs segs⟩ = segs := by
  cases segs with
  | nil =>
    simp [pathSegs, renderAbs, interSlash, splitSlash, normSegs]
  | cons s rest =>
    have hslash : ∀ x ∈ s :: rest, '/' ∉ x := fun x hx => (hgood x hx).2.2.2
    simp only [pathSegs, renderAbs]
    have h1 : splitSlash ('/' :: interSlash (s :: rest)) =
        [] :: splitSlash (interSlash (s :: rest)) := by simp [splitSlash]
    rw [h1, splitSlash_interSlash (s :: rest) (by simp) hslash]
    simp only [normSegs, List.foldl_cons, if_pos rfl]
    exact normSegs_aux_already (s :: rest) [] hgood

/-- Normalization is idempotent. -/
theorem normAbsChars_renderAbs (segs : List (List Char)) (hgood : ∀ s ∈ segs, goodSeg s) :
    normAbsChars (renderAbs segs) = renderAbs segs := by
  have h : normSegs (splitSlash (renderAbs segs)) = segs := pathSegs_renderAbs segs hgood
  simp only [normAbsChars]
  rw [h]

theorem normAbsChars_eq_renderAbs_pathSegs (s : String) :
    normAbsChars s.data = renderAbs (pathSegs s) := rfl

/-- Helper: peeling a common slash-free head off a prefix relation. -/
theorem prefix_peel : ∀ (c p u v : List Char), '/' ∉ c → '/' ∉ p →
    (c ++ '/' :: u) <+: (p ++ '/' :: v) → c = p ∧ u <+: v
  | [], [], u, v, _, _, h => ⟨rfl, by simpa using h⟩
  | [], x :: p', u, v, _, hp, h => by
    exfalso
    simp only [List.nil_append, List.cons_append, List.cons_prefix_cons] at h
    refine hp ?_
    rw [← h.1]
    exact List.mem_cons_self ..
  | a :: c', [], u, v, hc, _, h => by
    exfalso
    simp only [List.nil_append, List.cons_append, List.cons_prefix_cons] at h
    refine hc ?_
    rw [h.1]
    exact List.mem_cons_self ..
  | a :: c', x :: p', u, v, hc, hp, h => by
    simp only [List.cons_append, List.cons_prefix_cons] at h
    obtain ⟨hax, h'⟩ := h
    obtain ⟨he, hpre⟩ := prefix_peel c' p' u v
      (fun hm => hc (List.mem_cons_of_mem _ hm))
      (fun hm => hp (List.mem_cons_of_mem _ hm)) h'
    exact ⟨by rw [hax, he], hpre⟩

/-- Core containment lemma: if the rendered cwd segments followed by a slash
are a prefix of the rendered path segments, then the cwd segment list is a
strict prefix of the path segment list. -/
theorem interSlash_prefix_segs (cs ps : List (List Char))
    (hcs : ∀ s ∈ cs, goodSeg s) (hps : ∀ s ∈ ps, goodSeg s)
    (h : (interSlash cs ++ ['/']) <+: interSlash ps) :
    ∃ qs, qs ≠ [] ∧ ps = cs ++ qs := by
  induction cs generalizing ps with
  | nil =>
    cases ps with
    | nil =>
      simp [interSlash, List.prefix_nil] at h
    | cons p ps' =>
      refine ⟨p :: ps', by simp, rfl⟩
  | cons c cs' ih =>
    cases ps with
    | nil =>
      exfalso
      have hsub : '/' ∈ interSlash [] := by
        have hmem : '/' ∈ interSlash (c :: cs') ++ ['/'] := by simp
        exact h.subset hmem
      simp [interSlash] at hsub
    | cons p ps' =>
      have hc : goodSeg c := hcs c (List.mem_cons_self ..)
      have hp : goodSeg p := hps p (List.mem_cons_self ..)
      have hcs' : ∀ s ∈ cs', goodSeg s := fun s hs => hcs s (List.mem_cons_of_mem _ hs)
      have hps' : ∀ s ∈ ps', goodSeg s := fun s hs => hps s (List.mem_cons_of_mem _ hs)
      cases cs' with
      | nil =>
        cases ps' with
        | nil =>
          exfalso
          have hmem : '/' ∈ interSlash [c] ++ ['/'] := by simp
          have := h.subset hmem
          simp [interSlash] at this
          exact hp.2.2.2 this
        | cons q ps'' =>
          have h' : (c ++ '/' :: []) <+: (p ++ '/' :: interSlash (q :: ps'')) := by
            simpa [interSlash] using h
          obtain ⟨he, _⟩ := prefix_peel c p [] _ hc.2.2.2 hp.2.2.2 h'
          exact ⟨q :: ps'', by simp, by simp [he]⟩
      | cons c2 cs'' =>
        cases ps' with
        | nil =>
          exfalso
          have hmem : '/' ∈ interSlash (c :: c2 :: cs'') ++ ['/'] := by
            simp [interSlash]
          have := h.subset hmem
          simp [interSlash] at this
          exact hp.2.2.2 this
        | cons q ps'' =>
          have h' : (c ++ '/' :: (interSlash (c2 :: cs'') ++ ['/'])) <+:
              (p ++ '/' :: interSlash (q :: ps'')) := by
            have : interSlash (c :: c2 :: cs'') ++ ['/'] =
                c ++ '/' :: (interSlash (c2 :: cs'') ++ ['/']) := by
              simp [interSlash]
            rw [this] at h
            simpa [interSlash] using h
          obtain ⟨he, hpre⟩ := prefix_peel c p _ _ hc.2.2.2 hp.2.2.2 h'
          obtain ⟨qs, hqs, hqseq⟩ := ih (q :: ps'') hcs' hps' hpre
          exact ⟨qs, hqs, by rw [he, hqseq]; simp⟩

theorem normAbsChars_good (cs : List Char) :
    ∀ seg ∈ normSegs (splitSlash cs), goodSeg seg :=
  mem_normSegs_good _ (mem_splitSlash_no_slash _)

theorem isAbsolute_normAbs (cs : List Char) :
    isAbsolute ⟨normAbsChars cs⟩ = true := rfl

theorem normAbsChars_idem (cs : List Char) :
    normAbsChars (normAbsChars cs) = normAbsChars cs :=
  normAbsChars_renderAbs _ (normAbsChars_good cs)

/-- Re-resolving a resolver output is the identity. -/
theorem resolve1_normAbs (hostCwd : String) (cs : List Char) :
    resolve1 hostCwd ⟨normAbsChars cs⟩ = ⟨normAbsChars cs⟩ := by
  simp only [resolve1, isAbsolute_normAbs cs, if_true]
  exact congrArg String.mk (normAbsChars_idem cs)

theorem resolve1_is_normAbs (hostCwd p : String) :
    ∃ cs, resolve1 hostCwd p = ⟨normAbsChars cs⟩ := by
  unfold resolve1
  split
  · exact ⟨p.data, rfl⟩
  · exact ⟨hostCwd.data ++ '/' :: p.data, rfl⟩

theorem resolve2_is_normAbs (hostCwd a b : String) :
    ∃ cs, resolve2 hostCwd a b = ⟨normAbsChars cs⟩ := by
  unfold resolve2
  split
  · exact ⟨b.data, rfl⟩
  · split
    · exact ⟨a.data ++ '/' :: b.data, rfl⟩
    · exact ⟨hostCwd.data ++ '/' :: a.data ++ '/' :: b.data, rfl⟩

theorem resolve1_idem (hostCwd p : String) :
    resolve1 hostCwd (resolve1 hostCwd p) = resolve1 hostCwd p := by
  obtain ⟨cs, hcs⟩ := resolve1_is_normAbs hostCwd p
  rw [hcs, resolve1_normAbs]

theorem pathSegs_normAbs (cs : List Char) :
    pathSegs ⟨normAbsChars cs⟩ = normSegs (splitSlash cs) :=
  pathSegs_renderAbs _ (normAbsChars_good cs)

/-- A successful containment check implies that the resolved cwd's segment
list is a prefix of the resolved path's segment list (equality included). -/
theorem isWithin_imp_segs (hostCwd p cwd : String)
    (h : isWithin hostCwd p cwd = true) :
    pathSegs (resolve1 hostCwd cwd) <+: pathSegs (resolve1 hostCwd p) := by
  obtain ⟨ps, hps⟩ := resolve1_is_normAbs hostCwd p
  obtain ⟨cs, hcs⟩ := resolve1_is_normAbs hostCwd cwd
  simp only [isWithin, Bool.or_eq_true, beq_iff_eq] at h
  rcases h with h | h
  · rw [h]
  · rw [hps, hcs, pathSegs_normAbs, pathSegs_normAbs]
    rw [hps, hcs] at h
    have h' : ((⟨normAbsChars cs⟩ : String).data ++ ['/']) <+:
        (⟨normAbsChars ps⟩ : String).data := List.isPrefixOf_iff_prefix.mp h
    have hgc := normAbsChars_good cs
    have hgp := normAbsChars_good ps
    have h'' : (interSlash (normSegs (splitSlash cs)) ++ ['/']) <+:
        interSlash (normSegs (splitSlash ps)) := by
      have hshape : (⟨normAbsChars cs⟩ : String).data ++ ['/'] =
          '/' :: (interSlash (normSegs (splitSlash cs)) ++ ['/']) := rfl
      have hshape2 : (⟨normAbsChars ps⟩ : String).data =
          '/' :: interSlash (normSegs (splitSlash ps)) := rfl
      rw [hshape, hshape2, List.cons_prefix_cons] at h'
      exact h'.2
    obtain ⟨qs, _, hqs⟩ := interSlash_prefix_segs _ _ hgc hgp h''
    exact ⟨qs, hqs.symm⟩

/-! ## Sandboxed action executor: file operations

`executePendingAction` (sessionController.ts, lines 465–537), file phase.
The filesystem write effects are recorded as an explicit list of
`(path, content)` pairs; `mkdir` has no observable effect in this model
beyond enabling the write. -/

/-- One entry of `action.file_operations`. -/
structure FileOp where
  path : String
  content : String
  mode : Option String
deriving DecidableEq

/-- One entry of the executor's `fileResults` (failure entries carry a
`reason`, success entries carry a `mode`). -/
structure FileWriteRes where
  path : String
  success : Bool
  reason : Option String
  mode : Option String
deriving DecidableEq

/-- `isAbsolute(rawPath) ? resolve(rawPath) : resolve(cwd, rawPath)`. -/
def fileOpAbs (hostCwd cwd raw : String) : String :=
  if isAbsolute raw then resolve1 hostCwd raw else resolve2 hostCwd cwd raw

/-- The file-operation loop of `executePendingAction`: returns
(`fileResults`, `createdFiles`, filesystem writes). -/
def executeFileOps (hostCwd cwd : String) :
    List FileOp → List FileWriteRes × List String × List (String × String)
  | [] => ([], [], [])
  | op :: rest =>
    let rawPath := strTrim op.path
    if rawPath = "" then executeFileOps hostCwd cwd rest
    else
      let absolute := fileOpAbs hostCwd cwd rawPath
      let r := executeFileOps hostCwd cwd rest
      if isWithin hostCwd absolute cwd then
        (⟨absolute, true, none, some (jsOr op.mode "write")⟩ :: r.1,
         absolute :: r.2.1, (absolute, op.content) :: r.2.2)
      else
        (⟨absolute, false, some "Path escapes action cwd", none⟩ :: r.1, r.2.1, r.2.2)

theorem fileOpAbs_is_normAbs (hostCwd cwd raw : String) :
    ∃ cs, fileOpAbs hostCwd cwd raw = ⟨normAbsChars cs⟩ := by
  unfold fileOpAbs
  split
  · exact resolve1_is_normAbs hostCwd raw
  · exact resolve2_is_normAbs hostCwd cwd raw

theorem resolve1_fileOpAbs (hostCwd cwd raw : String) :
    resolve1 hostCwd (fileOpAbs hostCwd cwd raw) = fileOpAbs hostCwd cwd raw := by
  obtain ⟨cs, hcs⟩ := fileOpAbs_is_normAbs hostCwd cwd raw
  rw [hcs, resolve1_normAbs]

/-- Loop invariants of the file-operation phase, by induction on the
operation list. -/
theorem executeFileOps_spec (hostCwd cwd : String) (ops : List FileOp) :
    (∀ op ∈ ops, strTrim op.path ≠ "" →
      isWithin hostCwd (fileOpAbs hostCwd cwd (strTrim op.path)) cwd = false →
      (⟨fileOpAbs hostCwd cwd (strTrim op.path), false,
        some "Path escapes action cwd", none⟩ : FileWriteRes) ∈
        (executeFileOps hostCwd cwd ops).1) ∧
    (executeFileOps hostCwd cwd ops).1.length =
      (ops.filter (fun op => strTrim op.path != "")).length ∧
    (∀ p ∈ (executeFileOps hostCwd cwd ops).2.1,
      isWithin hostCwd p cwd = true ∧ ∃ cs, p = (⟨normAbsChars cs⟩ : String)) ∧
    (∀ pc ∈ (executeFileOps hostCwd cwd ops).2.2,
      isWithin hostCwd pc.1 cwd = true) := by
  induction ops with
  | nil => simp [executeFileOps]
  | cons op rest ih =>
    obtain ⟨ih1, ih2, ih3, ih4⟩ := ih
    by_cases hraw : strTrim op.path = ""
    · refine ⟨?_, ?_, ?_, ?_⟩
      · intro o ho hne hesc
        rcases List.mem_cons.mp ho with ho | ho
        · subst ho; exact absurd hraw hne
        · simpa [executeFileOps, hraw] using ih1 o ho hne hesc
      · simpa [executeFileOps, hraw] using ih2
      · intro p hp
        exact ih3 p (by simpa [executeFileOps, hraw] using hp)
      · intro pc hpc
        exact ih4 pc (by simpa [executeFileOps, hraw] using hpc)
    · by_cases hin : isWithin hostCwd (fileOpAbs hostCwd cwd (strTrim op.path)) cwd = true
      · refine ⟨?_, ?_, ?_, ?_⟩
        · intro o ho hne hesc
          rcases List.mem_cons.mp ho with ho | ho
          · subst ho; rw [hin] at hesc; exact absurd hesc (by simp)
          · have := ih1 o ho hne hesc
            simp only [executeFileOps, hraw, if_false, hin, if_true]
            exact List.mem_cons_of_mem _ this
        · simp only [executeFileOps, hraw, if_false, hin, if_true]
          simpa [hraw] using ih2
        · intro p hp
          simp only [executeFileOps, hraw, if_false, hin, if_true] at hp
          rcases List.mem_cons.mp hp with hp | hp
          · subst hp
            exact ⟨hin, fileOpAbs_is_normAbs hostCwd cwd (strTrim op.path)⟩
          · exact ih3 p hp
        · intro pc hpc
          simp only [executeFileOps, hraw, if_false, hin, if_true] at hpc
          rcases List.mem_cons.mp hpc with hpc | hpc
          · subst hpc; exact hin
          · exact ih4 pc hpc
      · have hin' : isWithin hostCwd (fileOpAbs hostCwd cwd (strTrim op.path)) cwd = false := by
          simpa using hin
        refine ⟨?_, ?_, ?_, ?_⟩
        · intro o ho hne hesc
          simp only [executeFileOps, hraw, if_false, hin', Bool.false_eq_true]
          rcases List.mem_cons.mp ho with ho | ho
          · subst ho; exact List.mem_cons_self ..
          · exact List.mem_cons_of_mem _ (ih1 o ho hne hesc)
        · simp only [executeFileOps, hraw, if_false, hin', Bool.false_eq_true, if_false]
          simpa [hraw] using ih2
        · intro p hp
          simp only [executeFileOps, hraw, if_false, hin', Bool.false_eq_true, if_false] at hp
          exact ih3 p hp
        · intro pc hpc
          simp only [executeFileOps, hraw, if_false, hin', Bool.false_eq_true, if_false] at hpc
          exact ih4 pc hpc

/-- C1: for every confirmation action, each file operation whose path,
resolved against the action's resolved cwd, is neither equal to cwd nor a
strict descendant of cwd (segment-wise) is recorded as failed with reason
"Path escapes action cwd", no file is written for it, the remaining file
operations are still processed (one result entry per nonblank-path
operation), and every path in `createdFiles` is equal to cwd or a descendant
of it (cwd's segments are a prefix of its segments). -/
theorem C1_sandbox_containment (hostCwd rawCwd : String) (ops : List FileOp) :
    (∀ op ∈ ops, strTrim op.path ≠ "" →
      ¬ (pathSegs (resolve1 hostCwd rawCwd) <+:
          pathSegs (fileOpAbs hostCwd (resolve1 hostCwd rawCwd) (strTrim op.path))) →
      ((⟨fileOpAbs hostCwd (resolve1 hostCwd rawCwd) (strTrim op.path), false,
          some "Path escapes action cwd", none⟩ : FileWriteRes) ∈
          (executeFileOps hostCwd (resolve1 hostCwd rawCwd) ops).1 ∧
        fileOpAbs hostCwd (resolve1 hostCwd rawCwd) (strTrim op.path) ∉
          (executeFileOps hostCwd (resolve1 hostCwd rawCwd) ops).2.1 ∧
        ∀ content, (fileOpAbs hostCwd (resolve1 hostCwd rawCwd) (strTrim op.path), content) ∉
          (executeFileOps hostCwd (resolve1 hostCwd rawCwd) ops).2.2)) ∧
    (executeFileOps hostCwd (resolve1 hostCwd rawCwd) ops).1.length =
      (ops.filter (fun op => strTrim op.path != "")).length ∧
    (∀ p ∈ (executeFileOps hostCwd (resolve1 hostCwd rawCwd) ops).2.1,
      pathSegs (resolve1 hostCwd rawCwd) <+: pathSegs p) := by
  set cwd := resolve1 hostCwd rawCwd with hcwd
  obtain ⟨h1, h2, h3, h4⟩ := executeFileOps_spec hostCwd cwd ops
  have hwithin_imp : ∀ q : String, resolve1 hostCwd q = q →
      isWithin hostCwd q cwd = true → pathSegs cwd <+: pathSegs q := by
    intro q hq hw
    have := isWithin_imp_segs hostCwd q cwd hw
    rwa [hq, hcwd, resolve1_idem, ← hcwd] at this
  refine ⟨?_, h2, ?_⟩
  · intro op hop hne hesc
    have habs := resolve1_fileOpAbs hostCwd cwd (strTrim op.path)
    have hin' : isWithin hostCwd (fileOpAbs hostCwd cwd (strTrim op.path)) cwd = false := by
      by_contra hcon
      have : isWithin hostCwd (fileOpAbs hostCwd cwd (strTrim op.path)) cwd = true := by
        revert hcon
        cases isWithin hostCwd (fileOpAbs hostCwd cwd (strTrim op.path)) cwd <;> simp
      exact hesc (hwithin_imp _ habs this)
    refine ⟨h1 op hop hne hin', ?_, ?_⟩
    · intro hmem
      obtain ⟨hw, _⟩ := h3 _ hmem
      exact hesc (hwithin_imp _ habs hw)
    · intro content hmem
      have hw := h4 _ hmem
      exact hesc (hwithin_imp _ habs hw)
  · intro p hp
    obtain ⟨hw, cs, hcs⟩ := h3 p hp
    have hq : resolve1 hostCwd p = p := by rw [hcs, resolve1_normAbs]
    exact hwithin_imp p hq hw

/-- Witness for C1: with cwd `/workspace/proj`, the operation writing
`../../etc/passwd` is recorded as failed at resolved path `/etc/passwd` and
produces no file, while `data/out.txt` is still processed and lands inside
the sandbox. -/
theorem C1_sandbox_containment_witness :
    ((⟨"/etc/passwd", false, some "Path escapes action cwd", none⟩ : FileWriteRes) ∈
      (executeFileOps "/h" (resolve1 "/h" "/workspace/proj")
        [⟨"../../etc/passwd", "X", none⟩, ⟨"data/out.txt", "Y", none⟩]).1 ∧
    ("/etc/passwd" : String) ∉
      (executeFileOps "/h" (resolve1 "/h" "/workspace/proj")
        [⟨"../../etc/passwd", "X", none⟩, ⟨"data/out.txt", "Y", none⟩]).2.1) ∧
    (executeFileOps "/h" (resolve1 "/h" "/workspace/proj")
      [⟨"../../etc/passwd", "X", none⟩, ⟨"data/out.txt", "Y", none⟩]).1.length = 2 := by
  have h := C1_sandbox_containment "/h" "/workspace/proj"
    [⟨"../../etc/passwd", "X", none⟩, ⟨"data/out.txt", "Y", none⟩]
  have h1 := h.1 ⟨"../../etc/passwd", "X", none⟩ (List.mem_cons_self ..)
    (by decide) (by decide)
  exact ⟨⟨h1.1, h1.2.1⟩, h.2.1⟩

/-! ## Sandboxed action executor: commands

`normalizeCommands`, `runCommand`, `expandCommandFallbacks`,
`pythonCandidates` and the command loop of `executePendingAction`.
Process spawning is abstracted by an oracle `exec : List String → CmdResult`
(the result the host system produces for a given argument vector);
`existsSync` is abstracted by `fsExists : String → Bool`. -/

/-- An entry of a JavaScript command payload: a string or an array of strings. -/
inductive CmdEntry
  | str (s : String)
  | arr (xs : List String)
deriving DecidableEq

/-- JavaScript `String(entry)`: an array renders as its comma-joined elements. -/
def entryToString : CmdEntry → String
  | .str s => s
  | .arr xs => String.intercalate "," xs

/-- `Array.isArray(entry) ? entry.map(String) : []`. -/
def entryToVec : CmdEntry → List String
  | .arr xs => xs
  | .str _ => []

/-- `part.trim().length > 0`. -/
def nonBlank (p : String) : Bool := strTrim p != ""

/-- The tail of `normalizeCommands`: the part operating on the `commands`
field after the single-`command` branch falls through. -/
def normalizeCommandsCore (commands : Option (List CmdEntry)) : List (List String) :=
  match commands with
  | none => []
  | some [] => []
  | some (first :: rest) =>
    match first with
    | .arr _ => ((first :: rest).map entryToVec).filter (fun e => !e.isEmpty)
    | .str _ => [((first :: rest).map entryToString).filter nonBlank]

/-- JavaScript truthiness of the `command` field. -/
def cmdTruthy : Option CmdEntry → Bool
  | none => false
  | some (.str s) => s != ""
  | some (.arr _) => true

/-- `!commands || (Array.isArray(commands) && commands.length === 0)`. -/
def noCommands : Option (List CmdEntry) → Bool
  | none => true
  | some l => l.isEmpty

/-- `normalizeCommands` of the session controller. -/
def normalizeCommands (commands : Option (List CmdEntry)) (command : Option CmdEntry) :
    List (List String) :=
  if noCommands commands && cmdTruthy command then
    match command with
    | some (.arr parts) =>
      let single := parts.filter nonBlank
      if single.isEmpty then [] else [single]
    | some (.str s) =>
      if nonBlank s then [[strTrim s]] else normalizeCommandsCore commands
    | none => normalizeCommandsCore commands
  else normalizeCommandsCore commands

/-- The observable outcome of one spawned process. -/
structure CmdResult where
  command : String
  returncode : Int
  stdout : String
  stderr : String
deriving DecidableEq

/-- `runCommand`: an empty argument vector (or blank executable) produces the
"Empty command" failure without spawning; otherwise the spawn oracle decides
(timeout and duration are folded into the oracle's outcome). -/
def runCmd (exec : List String → CmdResult) (cmd : List String) : CmdResult :=
  match cmd with
  | [] => ⟨"", 1, "", "Empty command"⟩
  | c :: _ => if c = "" then ⟨"", 1, "", "Empty command"⟩ else exec cmd

/-- `pythonCandidates`: venv interpreters found under `cwd` in a fixed order,
then the original interpreter reference, then the fixed fallback chain. -/
def pythonCandidates (fsExists : String → Bool) (hostCwd cwd original : String) :
    List String :=
  let venvUnix := resolve2 hostCwd cwd ".venv/bin/python"
  let venvMac := resolve2 hostCwd cwd ".venv/bin/python3"
  let venvWin := resolve2 hostCwd cwd ".venv/Scripts/python.exe"
  (if fsExists venvUnix then [venvUnix] else []) ++
  (if fsExists venvMac then [venvMac] else []) ++
  (if fsExists venvWin then [venvWin] else []) ++
  [(if original = "" then "python" else original), "python3", "python3.11", "/usr/bin/python3"]

/-- The candidate loop of `expandCommandFallbacks`: dedup by trimmed,
lowercased key, skipping blank keys, attaching the retained arguments. -/
def buildVariants (args : List String) : List String → List String → List (List String)
  | [], _ => []
  | py :: rest, seen =>
    let key := strLower (strTrim py)
    if key = "" ∨ key ∈ seen then buildVariants args rest seen
    else (py :: args) :: buildVariants args rest (key :: seen)

/-- `expandCommandFallbacks` of the session controller. -/
def expandCommandFallbacks (fsExists : String → Bool) (hostCwd : String)
    (command : List String) (actionName cwd : String) : List (List String) :=
  match command with
  | [] => [command]
  | c0 :: args =>
    let primary := [c0 :: args]
    if actionName = "prepare_venv" ∨ actionName = "install_package" ∨
        actionName = "run_local_commands" then
      let exe := strLower (strTrim c0)
      if exe = "python" ∨ exe = "python3" ∨ exe = "python3.11" then
        let variants := buildVariants args (pythonCandidates fsExists hostCwd cwd c0) []
        if variants.length > 0 then variants else primary
      else primary
    else primary

/-- The per-group variant loop: the first variant exiting 0 wins, otherwise
the last attempted result is kept. -/
def runGroupLoop (exec : List String → CmdResult) : List (List String) → Option CmdResult
  | [] => none
  | [v] => some (runCmd exec v)
  | v :: v2 :: rest =>
    let r := runCmd exec v
    if r.returncode = 0 then some r else runGroupLoop exec (v2 :: rest)

/-- The group loop of `executePendingAction`: groups run sequentially,
stopping after the first group whose kept result is missing or non-zero. -/
def runGroups (exec : List String → CmdResult) (fsExists : String → Bool)
    (hostCwd actionName cwd : String) : List (List String) → List CmdResult
  | [] => []
  | g :: gs =>
    let seq := expandCommandFallbacks fsExists hostCwd g actionName cwd
    match runGroupLoop exec seq with
    | none => []
    | some r =>
      if r.returncode = 0 then r :: runGroups exec fsExists hostCwd actionName cwd gs
      else [r]

/-- The aggregated `returncode` of `executePendingAction`. -/
def execReturncode (fileResults : List FileWriteRes) (commandResults : List CmdResult) : Int :=
  if fileResults.any (fun row => row.success == false) ||
      commandResults.any (fun row => row.returncode != 0) then 1 else 0

/-- C4: within each group the variants are tried in order and the first
variant exiting 0 is the group's result (otherwise the last attempted
result is kept); once a group's kept result is non-zero, no subsequent
group is invoked (the remaining groups are irrelevant to the output) and
the aggregated returncode is non-zero. -/
theorem C4_variant_order_and_failfast :
    (∀ (exec : List String → CmdResult) (variants : List (List String)),
      runGroupLoop exec variants =
        match variants.find? (fun v => (runCmd exec v).returncode == 0) with
        | some v => some (runCmd exec v)
        | none => variants.getLast?.map (runCmd exec)) ∧
    (∀ (exec : List String → CmdResult) (fsExists : String → Bool)
        (hostCwd actionName cwd : String) (g : List String)
        (gs : List (List String)) (r : CmdResult),
      runGroupLoop exec (expandCommandFallbacks fsExists hostCwd g actionName cwd) = some r →
      r.returncode ≠ 0 →
      runGroups exec fsExists hostCwd actionName cwd (g :: gs) = [r] ∧
      ∀ fileResults : List FileWriteRes,
        execReturncode fileResults
          (runGroups exec fsExists hostCwd actionName cwd (g :: gs)) ≠ 0) ∧
    (∀ (fileResults : List FileWriteRes) (commandResults : List CmdResult)
        (r : CmdResult), r ∈ commandResults → r.returncode ≠ 0 →
      execReturncode fileResults commandResults ≠ 0) := by
  refine ⟨?_, ?_, ?_⟩
  · intro exec variants
    induction variants with
    | nil => simp [runGroupLoop]
    | cons v rest ih =>
      by_cases h0 : (runCmd exec v).returncode = 0
      · have hb : ((runCmd exec v).returncode == 0) = true := by simp [h0]
        cases rest with
        | nil => simp [runGroupLoop, List.find?, hb, h0]
        | cons v2 rest2 => simp [runGroupLoop, List.find?, hb, h0]
      · have hb : ((runCmd exec v).returncode == 0) = false := by simp [h0]
        cases rest with
        | nil => simp [runGroupLoop, List.find?, hb, h0]
        | cons v2 rest2 =>
          have hlast : (v :: v2 :: rest2).getLast? = (v2 :: rest2).getLast? := rfl
          rw [runGroupLoop]
          simp only [h0, if_false]
          rw [ih]
          have hfind : List.find? (fun v => (runCmd exec v).returncode == 0) (v :: v2 :: rest2) =
              List.find? (fun v => (runCmd exec v).returncode == 0) (v2 :: rest2) := by
            simp [List.find?, hb]
          rw [hfind, hlast]
  · intro exec fsExists hostCwd actionName cwd g gs r hloop hrc
    have hrun : runGroups exec fsExists hostCwd actionName cwd (g :: gs) = [r] := by
      rw [runGroups, hloop]
      simp [hrc]
    refine ⟨hrun, ?_⟩
    intro fileResults
    rw [hrun]
    simp [execReturncode, hrc]
  · intro fr cr r hmem hrc
    have hb : cr.any (fun row => row.returncode != 0) = true :=
      List.any_eq_true.mpr ⟨r, hmem, by simpa using hrc⟩
    simp [execReturncode, hb]

/-- Witness for C4 at a concrete failing group: the second group is never
reflected in the output and the aggregate is non-zero. -/
theorem C4_variant_order_and_failfast_witness :
    runGroups (fun _ => ⟨"false", 1, "", ""⟩) (fun _ => false) "/h" "noop" "/p"
      [["false"], ["echo"]] = [⟨"false", 1, "", ""⟩] ∧
    execReturncode []
      (runGroups (fun _ => ⟨"false", 1, "", ""⟩) (fun _ => false) "/h" "noop" "/p"
        [["false"], ["echo"]]) ≠ 0 := by
  have h := (C4_variant_order_and_failfast).2.1 (fun _ => ⟨"false", 1, "", ""⟩)
    (fun _ => false) "/h" "noop" "/p" ["false"] [["echo"]] ⟨"false", 1, "", ""⟩
    (by rfl) (by decide)
  exact ⟨h.1, h.2 []⟩

/-- Duplicates removed keeping first occurrences, whitespace-only entries
dropped; keys are the trimmed, lowercased entries. -/
def specDedup : List String → List String
  | [] => []
  | x :: xs =>
    if strLower (strTrim x) = "" then specDedup xs
    else x :: (specDedup xs).filter (fun y => strLower (strTrim y) != strLower (strTrim x))

/-- The candidate loop equals first-occurrence deduplication: the `seen` set
corresponds to filtering out already-seen keys. -/
theorem buildVariants_eq_filter (args : List String) (cands : List String) :
    ∀ seen : List String,
      buildVariants args cands seen =
        ((specDedup cands).filter
          (fun y => decide (strLower (strTrim y) ∉ seen))).map (fun py => py :: args) := by
  induction cands with
  | nil => intro seen; simp [buildVariants, specDedup]
  | cons x xs ih =>
    intro seen
    simp only [buildVariants, specDedup]
    by_cases hk : strLower (strTrim x) = ""
    · rw [if_pos (Or.inl hk), if_pos hk]
      exact ih seen
    · rw [if_neg hk]
      by_cases hs : strLower (strTrim x) ∈ seen
      · rw [if_pos (Or.inr hs)]
        rw [List.filter_cons]
        have hx : (decide (strLower (strTrim x) ∉ seen)) = false := by
          simp [hs]
        rw [hx]
        simp only [Bool.false_eq_true, if_false]
        rw [List.filter_filter]
        have hfun : ∀ y, ((decide (strLower (strTrim y) ∉ seen)) &&
            (strLower (strTrim y) != strLower (strTrim x))) =
            (decide (strLower (strTrim y) ∉ seen)) := by
          intro y
          by_cases hy : strLower (strTrim y) = strLower (strTrim x)
          · simp [hy, hs]
          · simp [hy]
        rw [List.filter_congr (fun y _ => hfun y)]
        exact ih seen
      · rw [if_neg (by tauto)]
        rw [List.filter_cons]
        have hx : (decide (strLower (strTrim x) ∉ seen)) = true := by
          simp [hs]
        rw [hx]
        simp only [if_true]
        rw [List.filter_filter, List.map_cons]
        congr 1
        rw [ih (strLower (strTrim x) :: seen)]
        congr 1
        refine List.filter_congr ?_
        intro y _
        by_cases hy : strLower (strTrim y) = strLower (strTrim x)
        · simp [hy, List.mem_cons]
        · simp [hy, List.mem_cons]

theorem buildVariants_spec (args cands : List String) :
    buildVariants args cands [] = (specDedup cands).map (fun py => py :: args) := by
  rw [buildVariants_eq_filter args cands []]
  congr 1
  have : ∀ y ∈ specDedup cands,
      (decide (strLower (strTrim y) ∉ ([] : List String))) = true := by
    intro y _; simp
  calc (specDedup cands).filter (fun y => decide (strLower (strTrim y) ∉ ([] : List String)))
      = (specDedup cands).filter (fun _ => true) := List.filter_congr (fun y hy => this y hy)
    _ = specDedup cands := List.filter_true _

theorem specDedup_ne_nil_of_mem (cands : List String) (x : String)
    (hx : x ∈ cands) (hk : strLower (strTrim x) ≠ "") : specDedup cands ≠ [] := by
  induction cands with
  | nil => cases hx
  | cons y ys ih =>
    rw [specDedup]
    by_cases hy : strLower (strTrim y) = ""
    · rw [if_pos hy]
      rcases List.mem_cons.mp hx with hx | hx
      · subst hx; exact absurd hy hk
      · exact ih hx
    · rw [if_neg hy]
      simp

/-- C5: the python-executable fallback expansion happens exactly for actions
named prepare_venv, install_package or run_local_commands whose first
argument trims/lowercases to a bare python interpreter name; the single
variant is then expanded, with duplicates removed, into the ordered
candidate list (existing venv interpreters under cwd in the fixed order
.venv/bin/python, .venv/bin/python3, .venv/Scripts/python.exe, then the
original interpreter reference, then python3, python3.11, /usr/bin/python3),
each candidate keeping the remaining arguments; all other commands stay a
single variant. -/
theorem C5_python_fallback_expansion :
    (∀ (fsExists : String → Bool) (hostCwd : String) (command : List String)
        (actionName cwd : String),
      ((actionName ≠ "prepare_venv" ∧ actionName ≠ "install_package" ∧
          actionName ≠ "run_local_commands") ∨
        (∀ c0 args, command = c0 :: args →
          strLower (strTrim c0) ≠ "python" ∧ strLower (strTrim c0) ≠ "python3" ∧
          strLower (strTrim c0) ≠ "python3.11")) →
      expandCommandFallbacks fsExists hostCwd command actionName cwd = [command]) ∧
    (∀ (fsExists : String → Bool) (hostCwd : String) (c0 : String) (args : List String)
        (actionName cwd : String),
      (actionName = "prepare_venv" ∨ actionName = "install_package" ∨
        actionName = "run_local_commands") →
      (strLower (strTrim c0) = "python" ∨ strLower (strTrim c0) = "python3" ∨
        strLower (strTrim c0) = "python3.11") →
      expandCommandFallbacks fsExists hostCwd (c0 :: args) actionName cwd =
        (specDedup (
          (if fsExists (resolve2 hostCwd cwd ".venv/bin/python")
            then [resolve2 hostCwd cwd ".venv/bin/python"] else []) ++
          (if fsExists (resolve2 hostCwd cwd ".venv/bin/python3")
            then [resolve2 hostCwd cwd ".venv/bin/python3"] else []) ++
          (if fsExists (resolve2 hostCwd cwd ".venv/Scripts/python.exe")
            then [resolve2 hostCwd cwd ".venv/Scripts/python.exe"] else []) ++
          [c0, "python3", "python3.11", "/usr/bin/python3"])).map (fun py => py :: args)) := by
  constructor
  · intro fsExists hostCwd command actionName cwd hside
    cases command with
    | nil => rfl
    | cons c0 args =>
      rcases hside with hname | hexe
      · simp only [expandCommandFallbacks]
        rw [if_neg (by tauto)]
      · obtain ⟨h1, h2, h3⟩ := hexe c0 args rfl
        simp only [expandCommandFallbacks]
        by_cases hname : actionName = "prepare_venv" ∨ actionName = "install_package" ∨
            actionName = "run_local_commands"
        · rw [if_pos hname, if_neg (by tauto)]
        · rw [if_neg hname]
  · intro fsExists hostCwd c0 args actionName cwd hname hexe
    have hc0 : c0 ≠ "" := by
      intro h
      subst h
      have heq : strLower (strTrim "") = "" := rfl
      rcases hexe with h | h | h <;> rw [heq] at h <;> exact absurd h (by decide)
    have horig : (if c0 = "" then "python" else c0) = c0 := if_neg hc0
    have hne : buildVariants args (pythonCandidates fsExists hostCwd cwd c0) [] ≠ [] := by
      rw [buildVariants_spec]
      intro hmap
      have hnil := List.map_eq_nil_iff.mp hmap
      refine specDedup_ne_nil_of_mem _ "python3" ?_ (by decide) hnil
      simp [pythonCandidates]
    simp only [expandCommandFallbacks]
    rw [if_pos hname, if_pos hexe]
    have hlen : (buildVariants args (pythonCandidates fsExists hostCwd cwd c0) []).length > 0 := by
      cases hbv : buildVariants args (pythonCandidates fsExists hostCwd cwd c0) [] with
      | nil => exact absurd hbv hne
      | cons a l => simp
    rw [if_pos hlen, buildVariants_spec]
    congr 2
    simp [pythonCandidates, horig, List.append_assoc]

/-- Witness for C5: with `/proj/.venv/bin/python` present, a `prepare_venv`
action running `python -m venv .venv` expands to the venv interpreter first,
then the deduplicated fallback chain. -/
theorem C5_python_fallback_expansion_witness :
    expandCommandFallbacks (fun s => s == "/proj/.venv/bin/python") "/h"
      ["python", "-m", "venv", ".venv"] "prepare_venv" "/proj" =
      [["/proj/.venv/bin/python", "-m", "venv", ".venv"],
       ["python", "-m", "venv", ".venv"],
       ["python3", "-m", "venv", ".venv"],
       ["python3.11", "-m", "venv", ".venv"],
       ["/usr/bin/python3", "-m", "venv", ".venv"]] ∧
    expandCommandFallbacks (fun _ => false) "/h" ["cargo", "build"] "prepare_venv" "/proj" =
      [["cargo", "build"]] := by
  constructor
  · rw [C5_python_fallback_expansion.2 (fun s => s == "/proj/.venv/bin/python") "/h"
      "python" ["-m", "venv", ".venv"] "prepare_venv" "/proj" (Or.inl rfl) (Or.inl (by decide))]
    decide
  · exact C5_python_fallback_expansion.1 (fun _ => false) "/h" ["cargo", "build"]
      "prepare_venv" "/proj"
      (Or.inr (by intro c0 args h; cases h; exact ⟨by decide, by decide, by decide⟩))

/-! ## Remote protocol client (`apiClient.ts`)

`request` issues a call and maps the outcome through the error taxonomy.
The transport layer is modelled by `FetchOutcome`: either no response was
obtained (the thrown error's message), or a response with an HTTP status and
a body.  A body is empty text (`JSON.parse` is skipped and `{}` is used),
unparseable text, or structured data whose envelope-relevant fields are
captured in `Envelope` (`data` is kept opaque as its rendered form;
absent/non-string fields are `none`). -/

/-- The `ApiError` raised by the client. -/
structure ApiError where
  message : String
  statusCode : Nat
  code : String
deriving DecidableEq

/-- The envelope-relevant fields of a parsed response body:
`success`, `data`, `error.code`, `error.message`, `detail.code`,
`detail.message`, and the top-level `message`. -/
structure Envelope where
  success : Option Bool
  data : Option String
  errorCode : Option String
  errorMessage : Option String
  detailCode : Option String
  detailMessage : Option String
  topMessage : Option String
deriving DecidableEq

def emptyEnvelope : Envelope := ⟨none, none, none, none, none, none, none⟩

inductive BodyText
  | empty
  | malformed
  | json (env : Envelope)
deriving DecidableEq

inductive FetchOutcome
  | noResponse (message : String)
  | response (status : Nat) (body : BodyText)
deriving DecidableEq

/-- `Response.ok`: status in the 200–299 range. -/
def responseOk (status : Nat) : Bool := 200 ≤ status && status < 300

/-- The parsed value: empty text parses to `{}`. -/
def envOfBody : BodyText → Envelope
  | .empty => emptyEnvelope
  | .json e => e
  | .malformed => emptyEnvelope

/-- `ArpApiClient.request` (apiClient.ts, lines 35–70). -/
def request : FetchOutcome → Except ApiError Envelope
  | .noResponse m => .error ⟨m, 0, "NETWORK_ERROR"⟩
  | .response status body =>
    match body with
    | .malformed =>
      .error ⟨"Backend returned non-JSON response (" ++ toString status ++ ")",
        status, "NON_JSON_RESPONSE"⟩
    | _ =>
      let parsed := envOfBody body
      if !responseOk status then
        .error ⟨jsOr parsed.detailMessage
            (jsOr parsed.errorMessage (jsOr parsed.topMessage ("HTTP " ++ toString status))),
          status,
          jsOr parsed.detailCode (jsOr parsed.errorCode "HTTP_ERROR")⟩
      else if parsed.success = some false then
        .error ⟨jsOr parsed.errorMessage "Request failed", status,
          jsOr parsed.errorCode "API_ERROR"⟩
      else .ok parsed

/-- Every operation of the client returns `res.data` of the envelope
produced by `request`. -/
def requestData (o : FetchOutcome) : Except ApiError (Option String) :=
  match request o with
  | .error e => .error e
  | .ok env => .ok env.data

/-- C6: the error taxonomy in precedence order — transport failure raises
the network error; an unparseable body raises the malformed-response error
carrying the raw status; a non-success status raises the HTTP error with
the remote-supplied code/message when present, else a generic message
derived from the status; a successful-status envelope with `success:false`
raises the application error with the embedded code/message; otherwise the
operation returns the envelope's data. -/
theorem C6_error_taxonomy :
    (∀ m : String, request (.noResponse m) = .error ⟨m, 0, "NETWORK_ERROR"⟩) ∧
    (∀ status : Nat, ∀ body : BodyText, body = .malformed →
      request (.response status body) =
        .error ⟨"Backend returned non-JSON response (" ++ toString status ++ ")",
          status, "NON_JSON_RESPONSE"⟩) ∧
    (∀ (status : Nat) (env : Envelope), responseOk status = false →
      jsTruthy env.detailMessage = none → jsTruthy env.errorMessage = none →
      jsTruthy env.topMessage = none → jsTruthy env.detailCode = none →
      jsTruthy env.errorCode = none →
      request (.response status (.json env)) =
        .error ⟨"HTTP " ++ toString status, status, "HTTP_ERROR"⟩) ∧
    (∀ (status : Nat) (env : Envelope) (m c : String), responseOk status = false →
      env.detailMessage = some m → m ≠ "" → env.detailCode = some c → c ≠ "" →
      request (.response status (.json env)) = .error ⟨m, status, c⟩) ∧
    (∀ (status : Nat) (env : Envelope), responseOk status = true →
      env.success = some false →
      request (.response status (.json env)) =
        .error ⟨jsOr env.errorMessage "Request failed", status,
          jsOr env.errorCode "API_ERROR"⟩) ∧
    (∀ (status : Nat) (env : Envelope), responseOk status = true →
      env.success ≠ some false →
      requestData (.response status (.json env)) = .ok env.data) := by
  refine ⟨fun m => rfl, ?_, ?_, ?_, ?_, ?_⟩
  · intro status body hbody
    subst hbody
    rfl
  · intro status env hok h1 h2 h3 h4 h5
    simp [request, envOfBody, hok, jsOr, h1, h2, h3, h4, h5]
  · intro status env m c hok h1 hm h2 hc
    simp [request, envOfBody, hok, jsOr, h1, h2, jsTruthy, hm, hc]
  · intro status env hok hsucc
    simp [request, envOfBody, hok, hsucc]
  · intro status env hok hsucc
    simp [requestData, request, envOfBody, hok, hsucc]

/-- Witness for C6: a 200 response whose envelope does not declare failure
returns its data. -/
theorem C6_error_taxonomy_witness :
    requestData (.response 200 (.json ⟨some true, some "payload", none, none, none, none, none⟩)) =
      .ok (some "payload") := by
  have h := C6_error_taxonomy.2.2.2.2.2 200
    ⟨some true, some "payload", none, none, none, none, none⟩ (by decide) (by decide)
  exact h

/-! ## Workflow state machine (`ChatSessionController`)

The controller is modelled as a transition system.  Each public operation,
together with the remote responses it consumes, is one atomic event (the
host runs the controller on a single-threaded event loop; the immediate
tick issued by `startPolling` is modelled as a separate `poll` event, and
the `pollBusy` single-flight flag is subsumed by event atomicity).  Remote
responses ride on the events: `Except.error m` is a thrown error whose
display message is `m`.  Message `id`/`createdAt` fields are omitted —
transcript deduplication compares role, kind and content, as the source
does. -/

structure ClarificationQuestion where
  id : String
  text : String
  options : Option (List String)
  defaultAnswer : Option String
deriving DecidableEq

/-- The shape of a `pending_questions` payload: an object carrying a truthy
`current_question`, an object that is itself a well-formed question (string
`id` and `text`), or anything else. -/
inductive QuestionPayload
  | wrapped (q : ClarificationQuestion)
  | direct (q : ClarificationQuestion)
  | malformed
deriving DecidableEq

structure ConfirmationAction where
  action_id : String
  action : String
  cwd : Option String
  command : Option CmdEntry
  commands : Option (List CmdEntry)
  file_operations : Option (List FileOp)
  timeout_seconds : Option Nat
  reason : Option String
deriving DecidableEq

structure ChatMessage where
  role : String
  kind : String
  content : String
deriving DecidableEq

structure StartData where
  experiment_id : String
  status : String
  phase : Option String
  research_type : Option String
  execution_mode : Option String
  execution_target : Option String
  pending_questions : Option QuestionPayload
deriving DecidableEq

structure AnswerData where
  status : String
  phase : Option String
  research_type : Option String
  pending_questions : Option QuestionPayload
deriving DecidableEq

structure ConfirmData where
  status : String
  phase : Option String
  pending_action : Option ConfirmationAction
deriving DecidableEq

structure StatusData where
  status : String
  phase : Option String
  research_type : Option String
  execution_mode : Option String
  execution_target : Option String
  progress_pct : Option Int
  pending_action : Option ConfirmationAction
deriving DecidableEq

structure LogEntry where
  phase : Option String
  level : Option String
  message : Option String
  details : Option String
deriving DecidableEq

/-- A report's `content`: a string, an object with a string `markdown`, or
anything else. -/
inductive ReportContent
  | text (s : String)
  | objMarkdown (m : String)
  | other
deriving DecidableEq

structure SessState where
  experimentId : Option String
  status : String
  phase : Option String
  researchType : String
  executionMode : Option String
  executionTarget : Option String
  progressPct : Int
  pendingQuestion : Option ClarificationQuestion
  pendingAction : Option ConfirmationAction
  lastSuggestedAnswer : String
  inputPlaceholder : String
  messages : List ChatMessage
  pollingEnabled : Bool
  pollIntervalMs : Nat
deriving DecidableEq

structure Ctrl where
  pollTimerActive : Bool
  terminalArtifactsFetched : Bool
  lastAnnouncedActionId : Option String
  lastAnnouncedQuestionId : Option String
  state : SessState
deriving DecidableEq

/-- A single-quote character, used inside transcript strings. -/
def squote : String := ⟨['\'']⟩

def defaultPlaceholder : String := "Describe what you want to research..."

def answerPlaceholder : String :=
  "Type custom answer, then click " ++ squote ++ "Deny / Send Custom Answer" ++ squote

/-- The initial controller state (constructor plus the initial field values). -/
def initCtrl (pollIntervalMs : Nat) : Ctrl where
  pollTimerActive := false
  terminalArtifactsFetched := false
  lastAnnouncedActionId := none
  lastAnnouncedQuestionId := none
  state := {
    experimentId := none
    status := "idle"
    phase := none
    researchType := "ai"
    executionMode := none
    executionTarget := none
    progressPct := 0
    pendingQuestion := none
    pendingAction := none
    lastSuggestedAnswer := ""
    inputPlaceholder := defaultPlaceholder
    messages := []
    pollingEnabled := false
    pollIntervalMs := pollIntervalMs }

def normalizeStatus (status : String) : String :=
  if status = "pending" ∨ status = "waiting_user" ∨ status = "running" ∨
      status = "success" ∨ status = "failed" ∨ status = "aborted" then status
  else "idle"

def isTerminal (status : String) : Bool :=
  status == "success" || status == "failed" || status == "aborted"

/-- `pushMessage`: append unless identical in role, kind and content to the
immediately preceding entry. -/
def pushMsg (c : Ctrl) (role kind content : String) : Ctrl :=
  match c.state.messages.getLast? with
  | some last =>
    if last = ⟨role, kind, content⟩ then c
    else { c with state := { c.state with
      messages := c.state.messages ++ [⟨role, kind, content⟩] } }
  | none => { c with state := { c.state with
      messages := c.state.messages ++ [⟨role, kind, content⟩] } }

def extractQuestion : Option QuestionPayload → Option ClarificationQuestion
  | some (.wrapped q) => some q
  | some (.direct q) => some q
  | _ => none

def suggestedAnswer (q : ClarificationQuestion) : String :=
  match q.defaultAnswer with
  | some d => d
  | none =>
    match q.options with
    | some (o :: _) => o
    | _ => ""

def updatePlaceholder (c : Ctrl) : Ctrl :=
  let ph :=
    if c.state.pendingQuestion.isSome then answerPlaceholder
    else if c.state.pendingAction.isSome then "Optional deny reason for current approval step"
    else if c.state.experimentId.isSome ∧ isTerminal c.state.status = false then
      "Workflow is running..."
    else defaultPlaceholder
  { c with state := { c.state with inputPlaceholder := ph } }

def describeConfirmation (a : ConfirmationAction) : String :=
  let fileCount := (a.file_operations.getD []).length
  let commandCount := (normalizeCommands a.commands a.command).length
  let reasonStr := match jsTruthy a.reason with
    | some r => "\nReason: " ++ r
    | none => ""
  let cwdStr := match jsTruthy a.cwd with
    | some w => "\nCWD: " ++ w
    | none => ""
  "Approval required: " ++ a.action ++ reasonStr ++ cwdStr ++ "\nWill run " ++
    toString fileCount ++ " file ops and " ++ toString commandCount ++ " command(s)."

def setPendingQuestion (c : Ctrl) (q : ClarificationQuestion) : Ctrl :=
  let sug := suggestedAnswer q
  let c1 : Ctrl := { c with state := { c.state with
    pendingQuestion := some q, pendingAction := none, lastSuggestedAnswer := sug } }
  if q.id ≠ "" ∧ c1.lastAnnouncedQuestionId = some q.id then c1
  else
    let c2 : Ctrl := { c1 with
      lastAnnouncedQuestionId := if q.id ≠ "" then some q.id else c1.lastAnnouncedQuestionId }
    let optionsText := match q.options with
      | some (o :: os) => "\nOptions: " ++ String.intercalate ", " (o :: os)
      | _ => ""
    pushMsg c2 "assistant" "question"
      (q.text ++ optionsText ++ "\nSuggested answer: " ++ (if sug = "" then "(none)" else sug))

def stopPolling (c : Ctrl) : Ctrl :=
  { c with pollTimerActive := false, state := { c.state with pollingEnabled := false } }

def startPolling (c : Ctrl) : Ctrl :=
  if c.state.experimentId = none ∨ c.pollTimerActive then c
  else { c with pollTimerActive := true, state := { c.state with pollingEnabled := true } }

def applyStatus (c : Ctrl) (st : StatusData) : Ctrl :=
  { c with state := { c.state with
    status := normalizeStatus st.status,
    phase := st.phase,
    researchType := if st.research_type = some "quantum" then "quantum" else c.state.researchType,
    executionMode := match jsTruthy st.execution_mode with
      | some m => some m
      | none => c.state.executionMode,
    executionTarget := match jsTruthy st.execution_target with
      | some t => some t
      | none => c.state.executionTarget,
    progressPct := st.progress_pct.getD c.state.progressPct } }

def reportToText : ReportContent → String
  | .text s => s
  | .objMarkdown m => m
  | .other => ""

def isErrorLog (e : LogEntry) : Bool :=
  if strLower (e.level.getD "") = "error" then true
  else strContains (strLower (e.message.getD "")) "failed" ||
    strContains (strLower (e.message.getD "")) "error"

def formatLog (e : LogEntry) : String :=
  let phase := jsOr e.phase "unknown"
  let level := strUpper (jsOr e.level "info")
  let message := strTrim (e.message.getD "")
  if message = "" then ""
  else
    let details := e.details.getD ""
    let shortDetails := if details = "" then "" else " | details: " ++ strTake details 300
    "[" ++ phase ++ "/" ++ level ++ "] " ++ message ++ shortDetails

/-- The error-like entries of `fetchFailureDiagnostics`: filter, cap to the
first five, format, drop blanks. -/
def criticalLines (entries : List LogEntry) : List String :=
  (((entries.filter isErrorLog).take 5).map formatLog).filter (fun l => l != "")

/-- `String(config.research_type || config.research_mode || "ai")
.toLowerCase().includes("quantum")`. -/
def researchTypeOf (cfgRT cfgRM : Option String) : String :=
  if strContains (strLower (jsOr cfgRT (jsOr cfgRM "ai"))) "quantum" then "quantum" else "ai"

inductive ApiCall
  | startExperiment
  | answerQuestion
  | submitConfirmation
  | getStatus
  | getExperiment
  | getResults
  | getReport
  | getLogs
deriving DecidableEq

/-- One atomic controller operation together with the remote responses it
consumes when it reaches the corresponding calls. -/
inductive Ev
  | newSession
  | start (prompt : String) (cfgResearchType cfgResearchMode : Option String)
      (resp : Except String StartData)
  | answer (value : String) (resp : Except String AnswerData)
  | answerAccept (resp : Except String AnswerData)
  | confirmAccept (execRc : Int) (execStderr : String) (resp : Except String ConfirmData)
  | confirmDeny (reason altPref : String) (resp : Except String ConfirmData)
  | poll (statusResp : Except String StatusData)
      (detailResp : Except String (Option QuestionPayload))
      (resultsResp : Except String String) (reportResp : Except String ReportContent)
      (logsResp : Except String (List LogEntry))

/-- `startFreshSession`. -/
def doFresh (c : Ctrl) : Ctrl :=
  let c := stopPolling c
  { c with
    terminalArtifactsFetched := false,
    lastAnnouncedActionId := none, lastAnnouncedQuestionId := none,
    state := { c.state with
      experimentId := none, status := "idle", phase := none, progressPct := 0,
      pendingQuestion := none, pendingAction := none, lastSuggestedAnswer := "",
      inputPlaceholder := defaultPlaceholder, messages := [] } }

/-- `startFromUserPrompt`. -/
def doStart (c : Ctrl) (prompt : String) (cfgRT cfgRM : Option String)
    (resp : Except String StartData) : Ctrl × List ApiCall :=
  let trimmed := strTrim prompt
  if trimmed = "" then (c, [])
  else
    let c := stopPolling c
    let c : Ctrl := { c with
      terminalArtifactsFetched := false,
      lastAnnouncedActionId := none, lastAnnouncedQuestionId := none,
      state := { c.state with
        messages := [], pendingQuestion := none,
        pendingAction := none, progressPct := 0 } }
    let c := pushMsg c "user" "text" trimmed
    let researchType := researchTypeOf cfgRT cfgRM
    match resp with
    | .ok start =>
      let c : Ctrl := { c with state := { c.state with
        experimentId := some start.experiment_id,
        status := normalizeStatus start.status,
        phase := start.phase,
        researchType := if start.research_type = some "quantum" then "quantum" else researchType,
        executionMode := jsTruthy start.execution_mode,
        executionTarget := jsTruthy start.execution_target } }
      let c := pushMsg c "assistant" "status" ("Experiment started: " ++ start.experiment_id)
      let c := match extractQuestion start.pending_questions with
        | some q => setPendingQuestion c q
        | none => startPolling c
      (updatePlaceholder c, [ApiCall.startExperiment])
    | .error m =>
      (updatePlaceholder (pushMsg c "system" "error" m), [ApiCall.startExperiment])

/-- `submitClarification`. -/
def doSubmitClarification (c : Ctrl) (q : ClarificationQuestion) (value : String)
    (resp : Except String AnswerData) : Ctrl × List ApiCall :=
  if c.state.experimentId = none then (c, [])
  else
    let cleaned := strTrim value
    if cleaned = "" then
      (pushMsg c "system" "error" "Answer cannot be empty.", [])
    else
      let c := pushMsg c "user" "text" (q.text ++ "\nAnswer: " ++ cleaned)
      match resp with
      | .ok data =>
        let c : Ctrl := { c with state := { c.state with
          status := normalizeStatus data.status,
          phase := data.phase,
          researchType := if data.research_type = some "quantum" then "quantum"
            else c.state.researchType,
          pendingAction := none } }
        let c := match extractQuestion data.pending_questions with
          | some nq =>
            if c.state.status = "waiting_user" then setPendingQuestion c nq
            else startPolling { c with state := { c.state with pendingQuestion := none } }
          | none => startPolling { c with state := { c.state with pendingQuestion := none } }
        (updatePlaceholder c, [ApiCall.answerQuestion])
      | .error m =>
        (updatePlaceholder (pushMsg c "system" "error" m), [ApiCall.answerQuestion])

/-- `submitCustomClarification` / `denyQuestionEdit`. -/
def doAnswer (c : Ctrl) (value : String) (resp : Except String AnswerData) :
    Ctrl × List ApiCall :=
  match c.state.pendingQuestion with
  | none => (c, [])
  | some q => doSubmitClarification c q value resp

/-- `acceptQuestion`. -/
def doAnswerAccept (c : Ctrl) (resp : Except String AnswerData) : Ctrl × List ApiCall :=
  match c.state.pendingQuestion with
  | none => (c, [])
  | some q => doSubmitClarification c q (suggestedAnswer q) resp

/-- The local-execution transcript note of `submitConfirmation`: present only
for `confirm` decisions carrying an execution result. -/
def confirmLocalNote (c : Ctrl) (decision : String) (execResult : Option (Int × String))
    (actionName : String) : Ctrl :=
  if decision = "confirm" then
    match execResult with
    | some (rc, stderr0) =>
      let st := strTrim stderr0
      if rc ≠ 0 then
        pushMsg c "system" "error"
          ("Local action failed before backend confirmation (" ++ actionName ++
            "). returncode=" ++ toString rc ++
            (if st ≠ "" then "\n" ++ strTake st 600 else ""))
      else pushMsg c "system" "status" ("Local action succeeded: " ++ actionName)
    | none => c
  else c

/-- `submitConfirmation` (the local execution result is carried as its
returncode and stderr, the fields the transcript reports). -/
def doSubmitConfirmation (c : Ctrl) (decision : String) (execResult : Option (Int × String))
    (resp : Except String ConfirmData) : Ctrl × List ApiCall :=
  if c.state.experimentId = none then (c, [])
  else
    match c.state.pendingAction with
    | none => (c, [])
    | some current =>
      let c := pushMsg c "user" "text" (strUpper decision ++ ": " ++ current.action)
      let c := confirmLocalNote c decision execResult current.action
      match resp with
      | .ok data =>
        let c : Ctrl := { c with
          lastAnnouncedQuestionId := none,
          state := { c.state with
            status := normalizeStatus data.status,
            phase := data.phase,
            pendingQuestion := none,
            pendingAction := data.pending_action } }
        match data.pending_action with
        | some pa =>
          let c :=
            if pa.action_id ≠ "" ∧ c.lastAnnouncedActionId ≠ some pa.action_id then
              pushMsg { c with lastAnnouncedActionId := some pa.action_id }
                "assistant" "confirmation" (describeConfirmation pa)
            else c
          (updatePlaceholder c, [ApiCall.submitConfirmation])
        | none =>
          (updatePlaceholder (startPolling { c with lastAnnouncedActionId := none }),
            [ApiCall.submitConfirmation])
      | .error m =>
        (updatePlaceholder (pushMsg c "system" "error" m), [ApiCall.submitConfirmation])

/-- `acceptConfirm`. -/
def doConfirmAccept (c : Ctrl) (execRc : Int) (execStderr : String)
    (resp : Except String ConfirmData) : Ctrl × List ApiCall :=
  if c.state.pendingAction = none ∨ c.state.experimentId = none then (c, [])
  else doSubmitConfirmation c "confirm" (some (execRc, execStderr)) resp

/-- `denyConfirm` (reason and alternative preference only travel to the
remote call body). -/
def doConfirmDeny (c : Ctrl) (_reason _altPref : String)
    (resp : Except String ConfirmData) : Ctrl × List ApiCall :=
  doSubmitConfirmation c "deny" none resp

/-- `refreshPendingQuestion`. -/
def doRefreshPendingQuestion (c : Ctrl)
    (detailResp : Except String (Option QuestionPayload)) : Ctrl × List ApiCall :=
  if c.state.experimentId = none then (c, [])
  else
    match detailResp with
    | .ok payload =>
      match extractQuestion payload with
      | some q => (setPendingQuestion c q, [ApiCall.getExperiment])
      | none => (c, [ApiCall.getExperiment])
    | .error _ => (c, [ApiCall.getExperiment])

/-- `fetchFailureDiagnostics`. -/
def doFetchFailureDiagnostics (c : Ctrl) (logsResp : Except String (List LogEntry)) :
    Ctrl × List ApiCall :=
  if c.state.experimentId = none then (c, [])
  else
    match logsResp with
    | .ok entries =>
      let critical := criticalLines entries
      let c := if critical ≠ [] then
          pushMsg c "system" "error" ("Failure diagnostics:\n" ++ String.intercalate "\n" critical)
        else c
      (c, [ApiCall.getLogs])
    | .error m => (pushMsg c "system" "error" m, [ApiCall.getLogs])

/-- The results transcript note of `fetchTerminalArtifacts`. -/
def artifactsResultsNote (c : Ctrl) (resultsResp : Except String String) : Ctrl :=
  match resultsResp with
  | .ok rendered => pushMsg c "assistant" "summary" ("Results:\n" ++ rendered)
  | .error m => pushMsg c "system" "error" m

/-- The report transcript note of `fetchTerminalArtifacts` (silently skipped
when the flattened content is blank). -/
def artifactsReportNote (c : Ctrl) (reportResp : Except String ReportContent) : Ctrl :=
  match reportResp with
  | .ok content =>
    let text := reportToText content
    if strTrim text ≠ "" then
      pushMsg c "assistant" "summary" ("Research Report:\n" ++ strTake text 6000)
    else c
  | .error m => pushMsg c "system" "error" m

/-- `fetchTerminalArtifacts`. -/
def doFetchTerminalArtifacts (c : Ctrl) (resultsResp : Except String String)
    (reportResp : Except String ReportContent) (logsResp : Except String (List LogEntry)) :
    Ctrl × List ApiCall :=
  if c.state.experimentId = none ∨ c.terminalArtifactsFetched then (c, [])
  else
    let c : Ctrl := { c with terminalArtifactsFetched := true }
    let c := artifactsResultsNote c resultsResp
    let c := artifactsReportNote c reportResp
    if c.state.status = "failed" then
      let r := doFetchFailureDiagnostics c logsResp
      (r.1, [ApiCall.getResults, ApiCall.getReport] ++ r.2)
    else (c, [ApiCall.getResults, ApiCall.getReport])

/-- The `waiting_user` branch of `pollTick`. -/
def doPollWaiting (c : Ctrl) (st : StatusData)
    (detailResp : Except String (Option QuestionPayload)) : Ctrl × List ApiCall :=
  match st.pending_action with
  | some pa =>
    if pa.action_id ≠ "" then
      let adopt : Bool := match c.state.pendingAction with
        | none => true
        | some cur => cur.action_id != pa.action_id
      if adopt then
        let c : Ctrl := { c with
          lastAnnouncedQuestionId := none,
          state := { c.state with pendingAction := some pa, pendingQuestion := none } }
        let c := if pa.action_id ≠ "" ∧ c.lastAnnouncedActionId ≠ some pa.action_id then
            pushMsg { c with lastAnnouncedActionId := some pa.action_id }
              "assistant" "confirmation" (describeConfirmation pa)
          else c
        (c, [])
      else (c, [])
    else
      if c.state.pendingQuestion = none then doRefreshPendingQuestion c detailResp
      else (c, [])
  | none =>
    if c.state.pendingQuestion = none then doRefreshPendingQuestion c detailResp
    else (c, [])

/-- `pollTick`. -/
def doPoll (c : Ctrl) (statusResp : Except String StatusData)
    (detailResp : Except String (Option QuestionPayload))
    (resultsResp : Except String String) (reportResp : Except String ReportContent)
    (logsResp : Except String (List LogEntry)) : Ctrl × List ApiCall :=
  if c.state.experimentId = none then (c, [])
  else
    match statusResp with
    | .error m => (updatePlaceholder (pushMsg c "system" "error" m), [ApiCall.getStatus])
    | .ok st =>
      let c := applyStatus c st
      let r1 :=
        if c.state.status = "waiting_user" then doPollWaiting c st detailResp
        else ({ c with lastAnnouncedActionId := none }, ([] : List ApiCall))
      let c := r1.1
      let r2 :=
        if isTerminal c.state.status then
          let c := stopPolling c
          let c : Ctrl := { c with state := { c.state with
            pendingQuestion := none, pendingAction := none } }
          let c := pushMsg c "assistant" "summary" ("Workflow " ++ c.state.status ++ ".")
          doFetchTerminalArtifacts c resultsResp reportResp logsResp
        else (c, ([] : List ApiCall))
      (updatePlaceholder r2.1, ApiCall.getStatus :: r1.2 ++ r2.2)

/-- One atomic operation of the controller, returning the new state and the
remote calls issued. -/
def step (c : Ctrl) : Ev → Ctrl × List ApiCall
  | .newSession => (doFresh c, [])
  | .start prompt cfgRT cfgRM resp => doStart c prompt cfgRT cfgRM resp
  | .answer value resp => doAnswer c value resp
  | .answerAccept resp => doAnswerAccept c resp
  | .confirmAccept rc stderr resp => doConfirmAccept c rc stderr resp
  | .confirmDeny reason alt resp => doConfirmDeny c reason alt resp
  | .poll s d r rep logs => doPoll c s d r rep logs

def stepC (c : Ctrl) (e : Ev) : Ctrl := (step c e).1

/-- The controller state after a sequence of operations from a fresh
controller. -/
def run (pollIntervalMs : Nat) (evs : List Ev) : Ctrl :=
  evs.foldl stepC (initCtrl pollIntervalMs)

/-! ### Projection lemmas: which fields each helper leaves unchanged -/

@[simp] theorem pushMsg_pq (c : Ctrl) (r k m : String) :
    (pushMsg c r k m).state.pendingQuestion = c.state.pendingQuestion := by
  unfold pushMsg; split
  · split <;> rfl
  · rfl

@[simp] theorem pushMsg_pa (c : Ctrl) (r k m : String) :
    (pushMsg c r k m).state.pendingAction = c.state.pendingAction := by
  unfold pushMsg; split
  · split <;> rfl
  · rfl

@[simp] theorem pushMsg_eid (c : Ctrl) (r k m : String) :
    (pushMsg c r k m).state.experimentId = c.state.experimentId := by
  unfold pushMsg; split
  · split <;> rfl
  · rfl

@[simp] theorem pushMsg_status (c : Ctrl) (r k m : String) :
    (pushMsg c r k m).state.status = c.state.status := by
  unfold pushMsg; split
  · split <;> rfl
  · rfl

@[simp] theorem pushMsg_fetched (c : Ctrl) (r k m : String) :
    (pushMsg c r k m).terminalArtifactsFetched = c.terminalArtifactsFetched := by
  unfold pushMsg; split
  · split <;> rfl
  · rfl

@[simp] theorem pushMsg_timer (c : Ctrl) (r k m : String) :
    (pushMsg c r k m).pollTimerActive = c.pollTimerActive := by
  unfold pushMsg; split
  · split <;> rfl
  · rfl

@[simp] theorem pushMsg_enabled (c : Ctrl) (r k m : String) :
    (pushMsg c r k m).state.pollingEnabled = c.state.pollingEnabled := by
  unfold pushMsg; split
  · split <;> rfl
  · rfl

@[simp] theorem updatePlaceholder_pq (c : Ctrl) :
    (updatePlaceholder c).state.pendingQuestion = c.state.pendingQuestion := rfl

@[simp] theorem updatePlaceholder_pa (c : Ctrl) :
    (updatePlaceholder c).state.pendingAction = c.state.pendingAction := rfl

@[simp] theorem updatePlaceholder_eid (c : Ctrl) :
    (updatePlaceholder c).state.experimentId = c.state.experimentId := rfl

@[simp] theorem updatePlaceholder_status (c : Ctrl) :
    (updatePlaceholder c).state.status = c.state.status := rfl

@[simp] theorem updatePlaceholder_fetched (c : Ctrl) :
    (updatePlaceholder c).terminalArtifactsFetched = c.terminalArtifactsFetched := rfl

@[simp] theorem updatePlaceholder_timer (c : Ctrl) :
    (updatePlaceholder c).pollTimerActive = c.pollTimerActive := rfl

@[simp] theorem updatePlaceholder_enabled (c : Ctrl) :
    (updatePlaceholder c).state.pollingEnabled = c.state.pollingEnabled := rfl

@[simp] theorem updatePlaceholder_messages (c : Ctrl) :
    (updatePlaceholder c).state.messages = c.state.messages := rfl

@[simp] theorem stopPolling_pq (c : Ctrl) :
    (stopPolling c).state.pendingQuestion = c.state.pendingQuestion := rfl

@[simp] theorem stopPolling_pa (c : Ctrl) :
    (stopPolling c).state.pendingAction = c.state.pendingAction := rfl

@[simp] theorem stopPolling_eid (c : Ctrl) :
    (stopPolling c).state.experimentId = c.state.experimentId := rfl

@[simp] theorem stopPolling_status (c : Ctrl) :
    (stopPolling c).state.status = c.state.status := rfl

@[simp] theorem stopPolling_fetched (c : Ctrl) :
    (stopPolling c).terminalArtifactsFetched = c.terminalArtifactsFetched := rfl

@[simp] theorem stopPolling_timer (c : Ctrl) :
    (stopPolling c).pollTimerActive = false := rfl

@[simp] theorem stopPolling_enabled (c : Ctrl) :
    (stopPolling c).state.pollingEnabled = false := rfl

@[simp] theorem stopPolling_messages (c : Ctrl) :
    (stopPolling c).state.messages = c.state.messages := rfl

@[simp] theorem startPolling_pq (c : Ctrl) :
    (startPolling c).state.pendingQuestion = c.state.pendingQuestion := by
  unfold startPolling; split <;> rfl

@[simp] theorem startPolling_pa (c : Ctrl) :
    (startPolling c).state.pendingAction = c.state.pendingAction := by
  unfold startPolling; split <;> rfl

@[simp] theorem startPolling_eid (c : Ctrl) :
    (startPolling c).state.experimentId = c.state.experimentId := by
  unfold startPolling; split <;> rfl

@[simp] theorem startPolling_status (c : Ctrl) :
    (startPolling c).state.status = c.state.status := by
  unfold startPolling; split <;> rfl

@[simp] theorem startPolling_fetched (c : Ctrl) :
    (startPolling c).terminalArtifactsFetched = c.terminalArtifactsFetched := by
  unfold startPolling; split <;> rfl

@[simp] theorem startPolling_messages (c : Ctrl) :
    (startPolling c).state.messages = c.state.messages := by
  unfold startPolling; split <;> rfl

@[simp] theorem setPendingQuestion_pq (c : Ctrl) (q : ClarificationQuestion) :
    (setPendingQuestion c q).state.pendingQuestion = some q := by
  simp only [setPendingQuestion]; split
  · rfl
  · simp only [pushMsg_pq]

@[simp] theorem setPendingQuestion_pa (c : Ctrl) (q : ClarificationQuestion) :
    (setPendingQuestion c q).state.pendingAction = none := by
  simp only [setPendingQuestion]; split
  · rfl
  · simp only [pushMsg_pa]

@[simp] theorem setPendingQuestion_eid (c : Ctrl) (q : ClarificationQuestion) :
    (setPendingQuestion c q).state.experimentId = c.state.experimentId := by
  simp only [setPendingQuestion]; split
  · rfl
  · simp only [pushMsg_eid]

@[simp] theorem setPendingQuestion_status (c : Ctrl) (q : ClarificationQuestion) :
    (setPendingQuestion c q).state.status = c.state.status := by
  simp only [setPendingQuestion]; split
  · rfl
  · simp only [pushMsg_status]

@[simp] theorem setPendingQuestion_fetched (c : Ctrl) (q : ClarificationQuestion) :
    (setPendingQuestion c q).terminalArtifactsFetched = c.terminalArtifactsFetched := by
  simp only [setPendingQuestion]; split
  · rfl
  · simp only [pushMsg_fetched]

@[simp] theorem setPendingQuestion_timer (c : Ctrl) (q : ClarificationQuestion) :
    (setPendingQuestion c q).pollTimerActive = c.pollTimerActive := by
  simp only [setPendingQuestion]; split
  · rfl
  · simp only [pushMsg_timer]

@[simp] theorem applyStatus_pq (c : Ctrl) (st : StatusData) :
    (applyStatus c st).state.pendingQuestion = c.state.pendingQuestion := rfl

@[simp] theorem applyStatus_pa (c : Ctrl) (st : StatusData) :
    (applyStatus c st).state.pendingAction = c.state.pendingAction := rfl

@[simp] theorem applyStatus_eid (c : Ctrl) (st : StatusData) :
    (applyStatus c st).state.experimentId = c.state.experimentId := rfl

@[simp] theorem applyStatus_status (c : Ctrl) (st : StatusData) :
    (applyStatus c st).state.status = normalizeStatus st.status := rfl

@[simp] theorem applyStatus_fetched (c : Ctrl) (st : StatusData) :
    (applyStatus c st).terminalArtifactsFetched = c.terminalArtifactsFetched := rfl

@[simp] theorem applyStatus_timer (c : Ctrl) (st : StatusData) :
    (applyStatus c st).pollTimerActive = c.pollTimerActive := rfl

@[simp] theorem applyStatus_messages (c : Ctrl) (st : StatusData) :
    (applyStatus c st).state.messages = c.state.messages := rfl

@[simp] theorem confirmLocalNote_pq (c : Ctrl) (d e a) :
    (confirmLocalNote c d e a).state.pendingQuestion = c.state.pendingQuestion := by
  simp only [confirmLocalNote]
  split
  · cases e with
    | some p =>
      cases p with
      | mk rc st0 => simp only []; split <;> simp
    | none => rfl
  · rfl

@[simp] theorem confirmLocalNote_pa (c : Ctrl) (d e a) :
    (confirmLocalNote c d e a).state.pendingAction = c.state.pendingAction := by
  simp only [confirmLocalNote]
  split
  · cases e with
    | some p =>
      cases p with
      | mk rc st0 => simp only []; split <;> simp
    | none => rfl
  · rfl

@[simp] theorem confirmLocalNote_eid (c : Ctrl) (d e a) :
    (confirmLocalNote c d e a).state.experimentId = c.state.experimentId := by
  simp only [confirmLocalNote]
  split
  · cases e with
    | some p =>
      cases p with
      | mk rc st0 => simp only []; split <;> simp
    | none => rfl
  · rfl

@[simp] theorem confirmLocalNote_status (c : Ctrl) (d e a) :
    (confirmLocalNote c d e a).state.status = c.state.status := by
  simp only [confirmLocalNote]
  split
  · cases e with
    | some p =>
      cases p with
      | mk rc st0 => simp only []; split <;> simp
    | none => rfl
  · rfl

@[simp] theorem confirmLocalNote_fetched (c : Ctrl) (d e a) :
    (confirmLocalNote c d e a).terminalArtifactsFetched = c.terminalArtifactsFetched := by
  simp only [confirmLocalNote]
  split
  · cases e with
    | some p =>
      cases p with
      | mk rc st0 => simp only []; split <;> simp
    | none => rfl
  · rfl

@[simp] theorem confirmLocalNote_timer (c : Ctrl) (d e a) :
    (confirmLocalNote c d e a).pollTimerActive = c.pollTimerActive := by
  simp only [confirmLocalNote]
  split
  · cases e with
    | some p =>
      cases p with
      | mk rc st0 => simp only []; split <;> simp
    | none => rfl
  · rfl

@[simp] theorem doFetchFailureDiagnostics_pq (c : Ctrl) (logsResp) :
    (doFetchFailureDiagnostics c logsResp).1.state.pendingQuestion =
      c.state.pendingQuestion := by
  simp only [doFetchFailureDiagnostics]
  split
  · rfl
  · repeat' split
    all_goals simp

@[simp] theorem doFetchFailureDiagnostics_pa (c : Ctrl) (logsResp) :
    (doFetchFailureDiagnostics c logsResp).1.state.pendingAction =
      c.state.pendingAction := by
  simp only [doFetchFailureDiagnostics]
  split
  · rfl
  · repeat' split
    all_goals simp

@[simp] theorem doFetchFailureDiagnostics_eid (c : Ctrl) (logsResp) :
    (doFetchFailureDiagnostics c logsResp).1.state.experimentId =
      c.state.experimentId := by
  simp only [doFetchFailureDiagnostics]
  split
  · rfl
  · repeat' split
    all_goals simp

@[simp] theorem doFetchFailureDiagnostics_status (c : Ctrl) (logsResp) :
    (doFetchFailureDiagnostics c logsResp).1.state.status = c.state.status := by
  simp only [doFetchFailureDiagnostics]
  split
  · rfl
  · repeat' split
    all_goals simp

@[simp] theorem doFetchFailureDiagnostics_timer (c : Ctrl) (logsResp) :
    (doFetchFailureDiagnostics c logsResp).1.pollTimerActive = c.pollTimerActive := by
  simp only [doFetchFailureDiagnostics]
  split
  · rfl
  · repeat' split
    all_goals simp

@[simp] theorem doFetchFailureDiagnostics_enabled (c : Ctrl) (logsResp) :
    (doFetchFailureDiagnostics c logsResp).1.state.pollingEnabled =
      c.state.pollingEnabled := by
  simp only [doFetchFailureDiagnostics]
  split
  · rfl
  · repeat' split
    all_goals simp

@[simp] theorem doFetchFailureDiagnostics_fetched (c : Ctrl) (logsResp) :
    (doFetchFailureDiagnostics c logsResp).1.terminalArtifactsFetched =
      c.terminalArtifactsFetched := by
  simp only [doFetchFailureDiagnostics]
  split
  · rfl
  · repeat' split
    all_goals simp

@[simp] theorem artifactsResultsNote_pq (c : Ctrl) (r) :
    (artifactsResultsNote c r).state.pendingQuestion = c.state.pendingQuestion := by
  simp only [artifactsResultsNote]; repeat' split
  all_goals simp

@[simp] theorem artifactsResultsNote_pa (c : Ctrl) (r) :
    (artifactsResultsNote c r).state.pendingAction = c.state.pendingAction := by
  simp only [artifactsResultsNote]; repeat' split
  all_goals simp

@[simp] theorem artifactsResultsNote_eid (c : Ctrl) (r) :
    (artifactsResultsNote c r).state.experimentId = c.state.experimentId := by
  simp only [artifactsResultsNote]; repeat' split
  all_goals simp

@[simp] theorem artifactsResultsNote_status (c : Ctrl) (r) :
    (artifactsResultsNote c r).state.status = c.state.status := by
  simp only [artifactsResultsNote]; repeat' split
  all_goals simp

@[simp] theorem artifactsResultsNote_fetched (c : Ctrl) (r) :
    (artifactsResultsNote c r).terminalArtifactsFetched = c.terminalArtifactsFetched := by
  simp only [artifactsResultsNote]; repeat' split
  all_goals simp

@[simp] theorem artifactsResultsNote_timer (c : Ctrl) (r) :
    (artifactsResultsNote c r).pollTimerActive = c.pollTimerActive := by
  simp only [artifactsResultsNote]; repeat' split
  all_goals simp

@[simp] theorem artifactsResultsNote_enabled (c : Ctrl) (r) :
    (artifactsResultsNote c r).state.pollingEnabled = c.state.pollingEnabled := by
  simp only [artifactsResultsNote]; repeat' split
  all_goals simp

@[simp] theorem artifactsReportNote_pq (c : Ctrl) (rep) :
    (artifactsReportNote c rep).state.pendingQuestion = c.state.pendingQuestion := by
  simp only [artifactsReportNote]; repeat' split
  all_goals simp

@[simp] theorem artifactsReportNote_pa (c : Ctrl) (rep) :
    (artifactsReportNote c rep).state.pendingAction = c.state.pendingAction := by
  simp only [artifactsReportNote]; repeat' split
  all_goals simp

@[simp] theorem artifactsReportNote_eid (c : Ctrl) (rep) :
    (artifactsReportNote c rep).state.experimentId = c.state.experimentId := by
  simp only [artifactsReportNote]; repeat' split
  all_goals simp

@[simp] theorem artifactsReportNote_status (c : Ctrl) (rep) :
    (artifactsReportNote c rep).state.status = c.state.status := by
  simp only [artifactsReportNote]; repeat' split
  all_goals simp

@[simp] theorem artifactsReportNote_fetched (c : Ctrl) (rep) :
    (artifactsReportNote c rep).terminalArtifactsFetched = c.terminalArtifactsFetched := by
  simp only [artifactsReportNote]; repeat' split
  all_goals simp

@[simp] theorem artifactsReportNote_timer (c : Ctrl) (rep) :
    (artifactsReportNote c rep).pollTimerActive = c.pollTimerActive := by
  simp only [artifactsReportNote]; repeat' split
  all_goals simp

@[simp] theorem artifactsReportNote_enabled (c : Ctrl) (rep) :
    (artifactsReportNote c rep).state.pollingEnabled = c.state.pollingEnabled := by
  simp only [artifactsReportNote]; repeat' split
  all_goals simp

@[simp] theorem doFetchTerminalArtifacts_pq (c : Ctrl) (r rep logs) :
    (doFetchTerminalArtifacts c r rep logs).1.state.pendingQuestion =
      c.state.pendingQuestion := by
  simp only [doFetchTerminalArtifacts]
  split
  · rfl
  · repeat' split
    all_goals simp

@[simp] theorem doFetchTerminalArtifacts_pa (c : Ctrl) (r rep logs) :
    (doFetchTerminalArtifacts c r rep logs).1.state.pendingAction =
      c.state.pendingAction := by
  simp only [doFetchTerminalArtifacts]
  split
  · rfl
  · repeat' split
    all_goals simp

@[simp] theorem doFetchTerminalArtifacts_eid (c : Ctrl) (r rep logs) :
    (doFetchTerminalArtifacts c r rep logs).1.state.experimentId =
      c.state.experimentId := by
  simp only [doFetchTerminalArtifacts]
  split
  · rfl
  · repeat' split
    all_goals simp

@[simp] theorem doFetchTerminalArtifacts_status (c : Ctrl) (r rep logs) :
    (doFetchTerminalArtifacts c r rep logs).1.state.status = c.state.status := by
  simp only [doFetchTerminalArtifacts]
  split
  · rfl
  · repeat' split
    all_goals simp

@[simp] theorem doFetchTerminalArtifacts_timer (c : Ctrl) (r rep logs) :
    (doFetchTerminalArtifacts c r rep logs).1.pollTimerActive = c.pollTimerActive := by
  simp only [doFetchTerminalArtifacts]
  split
  · rfl
  · repeat' split
    all_goals simp

@[simp] theorem doFetchTerminalArtifacts_enabled (c : Ctrl) (r rep logs) :
    (doFetchTerminalArtifacts c r rep logs).1.state.pollingEnabled =
      c.state.pollingEnabled := by
  simp only [doFetchTerminalArtifacts]
  split
  · rfl
  · repeat' split
    all_goals simp

/-! ### C2: the two pending fields are never both set -/

/-- At most one outstanding item: `pendingQuestion` or `pendingAction` is null. -/
def pendOk (c : Ctrl) : Prop :=
  c.state.pendingQuestion = none ∨ c.state.pendingAction = none

theorem pendOk_init (n : Nat) : pendOk (initCtrl n) := Or.inl rfl

theorem pendOk_pushMsg (c : Ctrl) (r k m : String) (h : pendOk c) :
    pendOk (pushMsg c r k m) := by
  rcases h with h | h
  · exact Or.inl (by rw [pushMsg_pq]; exact h)
  · exact Or.inr (by rw [pushMsg_pa]; exact h)

theorem pendOk_updatePlaceholder (c : Ctrl) (h : pendOk c) :
    pendOk (updatePlaceholder c) := h

theorem pendOk_doFresh (c : Ctrl) : pendOk (doFresh c) := Or.inl rfl

theorem pendOk_doStart (c : Ctrl) (p : String) (rt rm : Option String)
    (resp : Except String StartData) (h : pendOk c) :
    pendOk (doStart c p rt rm resp).1 := by
  simp only [doStart]
  split
  · exact h
  · cases resp with
    | ok start =>
      cases hq : extractQuestion start.pending_questions with
      | some q => simp [pendOk, hq]
      | none => simp [pendOk, hq]
    | error m => simp [pendOk]

theorem pendOk_doSubmitClarification (c : Ctrl) (q : ClarificationQuestion)
    (v : String) (resp : Except String AnswerData) (h : pendOk c) :
    pendOk (doSubmitClarification c q v resp).1 := by
  simp only [doSubmitClarification]
  split
  · exact h
  · split
    · exact pendOk_pushMsg _ _ _ _ h
    · cases resp with
      | ok data =>
        cases hq : extractQuestion data.pending_questions with
        | some nq => simp only [hq]; split <;> simp [pendOk]
        | none => simp [pendOk, hq]
      | error m =>
        exact pendOk_updatePlaceholder _ (pendOk_pushMsg _ _ _ _ (pendOk_pushMsg _ _ _ _ h))

theorem pendOk_doAnswer (c : Ctrl) (v : String) (resp : Except String AnswerData)
    (h : pendOk c) : pendOk (doAnswer c v resp).1 := by
  simp only [doAnswer]
  cases hq : c.state.pendingQuestion with
  | none => exact h
  | some q => exact pendOk_doSubmitClarification c q v resp h

theorem pendOk_doAnswerAccept (c : Ctrl) (resp : Except String AnswerData)
    (h : pendOk c) : pendOk (doAnswerAccept c resp).1 := by
  simp only [doAnswerAccept]
  cases hq : c.state.pendingQuestion with
  | none => exact h
  | some q => exact pendOk_doSubmitClarification c q (suggestedAnswer q) resp h

theorem pendOk_doSubmitConfirmation (c : Ctrl) (d : String)
    (e : Option (Int × String)) (resp : Except String ConfirmData) (h : pendOk c) :
    pendOk (doSubmitConfirmation c d e resp).1 := by
  simp only [doSubmitConfirmation]
  split
  · exact h
  · cases hpa : c.state.pendingAction with
    | none => exact h
    | some current =>
      cases resp with
      | ok data =>
        cases hpd : data.pending_action with
        | some pa => simp only [hpd]; split <;> simp [pendOk]
        | none => simp [pendOk, hpd]
      | error m =>
        refine pendOk_updatePlaceholder _ (pendOk_pushMsg _ _ _ _ ?_)
        rcases h with h | h
        · exact Or.inl (by simp [h])
        · exact Or.inr (by simp [h])

theorem pendOk_doConfirmAccept (c : Ctrl) (rc : Int) (st : String)
    (resp : Except String ConfirmData) (h : pendOk c) :
    pendOk (doConfirmAccept c rc st resp).1 := by
  simp only [doConfirmAccept]
  split
  · exact h
  · exact pendOk_doSubmitConfirmation c _ _ resp h

theorem pendOk_doConfirmDeny (c : Ctrl) (r a : String)
    (resp : Except String ConfirmData) (h : pendOk c) :
    pendOk (doConfirmDeny c r a resp).1 :=
  pendOk_doSubmitConfirmation c _ _ resp h

theorem pendOk_doRefresh (c : Ctrl) (d : Except String (Option QuestionPayload))
    (h : pendOk c) : pendOk (doRefreshPendingQuestion c d).1 := by
  simp only [doRefreshPendingQuestion]
  split
  · exact h
  · cases d with
    | ok payload =>
      cases hq : extractQuestion payload with
      | some q => simp [pendOk, hq]
      | none => simp only [hq]; exact h
    | error m => exact h

theorem pendOk_doPollWaiting (c : Ctrl) (st : StatusData)
    (d : Except String (Option QuestionPayload)) (h : pendOk c) :
    pendOk (doPollWaiting c st d).1 := by
  rcases hpa : st.pending_action with _ | pa
  · simp only [doPollWaiting, hpa]
    split
    · exact pendOk_doRefresh c d h
    · exact h
  · simp only [doPollWaiting, hpa]
    split
    · split
      · split <;> simp [pendOk]
      · exact h
    · split
      · exact pendOk_doRefresh c d h
      · exact h

theorem pendOk_doPoll (c : Ctrl) (s : Except String StatusData)
    (d : Except String (Option QuestionPayload)) (r : Except String String)
    (rep : Except String ReportContent) (logs : Except String (List LogEntry))
    (h : pendOk c) : pendOk (doPoll c s d r rep logs).1 := by
  simp only [doPoll]
  split
  · exact h
  · cases s with
    | error m => exact pendOk_updatePlaceholder _ (pendOk_pushMsg _ _ _ _ h)
    | ok st =>
      simp only []
      have hA : pendOk (applyStatus c st) := by
        rcases h with h | h
        · exact Or.inl (by simp [h])
        · exact Or.inr (by simp [h])
      split
      · split
        · -- terminal: both pending fields cleared before artifact retrieval
          simp [pendOk]
        · exact pendOk_doPollWaiting _ st d hA
      · split
        · simp [pendOk]
        · exact hA

theorem pendOk_stepC (c : Ctrl) (e : Ev) (h : pendOk c) : pendOk (stepC c e) := by
  cases e with
  | newSession => exact pendOk_doFresh c
  | start p rt rm resp => exact pendOk_doStart c p rt rm resp h
  | answer v resp => exact pendOk_doAnswer c v resp h
  | answerAccept resp => exact pendOk_doAnswerAccept c resp h
  | confirmAccept rc st resp => exact pendOk_doConfirmAccept c rc st resp h
  | confirmDeny r a resp => exact pendOk_doConfirmDeny c r a resp h
  | poll s d r rep logs => exact pendOk_doPoll c s d r rep logs h

/-! ### Further projections: the poll branches leave core fields unchanged -/

@[simp] theorem doRefreshPendingQuestion_status (c : Ctrl) (d) :
    (doRefreshPendingQuestion c d).1.state.status = c.state.status := by
  simp only [doRefreshPendingQuestion]
  split
  · rfl
  · repeat' split
    all_goals simp

@[simp] theorem doRefreshPendingQuestion_eid (c : Ctrl) (d) :
    (doRefreshPendingQuestion c d).1.state.experimentId = c.state.experimentId := by
  simp only [doRefreshPendingQuestion]
  split
  · rfl
  · repeat' split
    all_goals simp

@[simp] theorem doRefreshPendingQuestion_fetched (c : Ctrl) (d) :
    (doRefreshPendingQuestion c d).1.terminalArtifactsFetched =
      c.terminalArtifactsFetched := by
  simp only [doRefreshPendingQuestion]
  split
  · rfl
  · repeat' split
    all_goals simp

@[simp] theorem doRefreshPendingQuestion_timer (c : Ctrl) (d) :
    (doRefreshPendingQuestion c d).1.pollTimerActive = c.pollTimerActive := by
  simp only [doRefreshPendingQuestion]
  split
  · rfl
  · repeat' split
    all_goals simp

@[simp] theorem doPollWaiting_status (c : Ctrl) (st : StatusData) (d) :
    (doPollWaiting c st d).1.state.status = c.state.status := by
  simp only [doPollWaiting]
  repeat' split
  all_goals simp

@[simp] theorem doPollWaiting_eid (c : Ctrl) (st : StatusData) (d) :
    (doPollWaiting c st d).1.state.experimentId = c.state.experimentId := by
  simp only [doPollWaiting]
  repeat' split
  all_goals simp

@[simp] theorem doPollWaiting_fetched (c : Ctrl) (st : StatusData) (d) :
    (doPollWaiting c st d).1.terminalArtifactsFetched = c.terminalArtifactsFetched := by
  simp only [doPollWaiting]
  repeat' split
  all_goals simp

@[simp] theorem doPollWaiting_timer (c : Ctrl) (st : StatusData) (d) :
    (doPollWaiting c st d).1.pollTimerActive = c.pollTimerActive := by
  simp only [doPollWaiting]
  repeat' split
  all_goals simp

/-- C2: in every reachable state of the workflow state machine,
`pendingQuestion` and `pendingAction` are never both non-null: one of them
is always null (equivalently, each being non-null implies the other is
null). -/
theorem C2_pending_fields_exclusive (pollIntervalMs : Nat) (evs : List Ev) :
    (run pollIntervalMs evs).state.pendingQuestion = none ∨
    (run pollIntervalMs evs).state.pendingAction = none := by
  have hgen : ∀ c : Ctrl, pendOk c → pendOk (evs.foldl stepC c) := by
    induction evs with
    | nil => intro c h; exact h
    | cons e rest ih => intro c h; exact ih _ (pendOk_stepC c e h)
  exact hgen (initCtrl pollIntervalMs) (pendOk_init _)

/-! ### C9: the stored status is always one of the seven lifecycle values -/

/-- The seven lifecycle values of `ExperimentLifecycleStatus`. -/
def statusLegal (s : String) : Prop :=
  s ∈ (["idle", "pending", "waiting_user", "running", "success", "failed",
    "aborted"] : List String)

theorem statusLegal_normalize (s : String) : statusLegal (normalizeStatus s) := by
  unfold normalizeStatus statusLegal
  split
  next h => rcases h with h | h | h | h | h | h <;> simp [h]
  next h => simp

def statusOk (c : Ctrl) : Prop := statusLegal c.state.status

theorem statusOk_init (n : Nat) : statusOk (initCtrl n) := by
  simp [statusOk, statusLegal, initCtrl]

theorem statusOk_doFresh (c : Ctrl) : statusOk (doFresh c) := by
  simp [statusOk, statusLegal, doFresh]

theorem statusOk_doStart (c : Ctrl) (p : String) (rt rm : Option String)
    (resp : Except String StartData) (h : statusOk c) :
    statusOk (doStart c p rt rm resp).1 := by
  simp only [doStart]
  split
  · exact h
  · cases resp with
    | ok start =>
      cases hq : extractQuestion start.pending_questions with
      | some q =>
        have := statusLegal_normalize start.status
        simp [statusOk, statusLegal, hq] at this ⊢
        exact this
      | none =>
        have := statusLegal_normalize start.status
        simp [statusOk, statusLegal, hq] at this ⊢
        exact this
    | error m =>
      simp only [statusOk] at h ⊢
      simpa using h

theorem statusOk_doSubmitClarification (c : Ctrl) (q : ClarificationQuestion)
    (v : String) (resp : Except String AnswerData) (h : statusOk c) :
    statusOk (doSubmitClarification c q v resp).1 := by
  simp only [doSubmitClarification]
  split
  · exact h
  · split
    · simp only [statusOk] at h ⊢; simpa using h
    · cases resp with
      | ok data =>
        have := statusLegal_normalize data.status
        cases hq : extractQuestion data.pending_questions with
        | some nq =>
          simp only [hq]
          split
          · simp only [statusOk, statusLegal] at this ⊢
            simpa using this
          · simp only [statusOk, statusLegal] at this ⊢
            simpa using this
        | none =>
          simp only [hq]
          simp only [statusOk, statusLegal] at this ⊢
          simpa using this
      | error m =>
        simp only [statusOk] at h ⊢; simpa using h

theorem statusOk_doAnswer (c : Ctrl) (v : String) (resp : Except String AnswerData)
    (h : statusOk c) : statusOk (doAnswer c v resp).1 := by
  simp only [doAnswer]
  cases hq : c.state.pendingQuestion with
  | none => exact h
  | some q => exact statusOk_doSubmitClarification c q v resp h

theorem statusOk_doAnswerAccept (c : Ctrl) (resp : Except String AnswerData)
    (h : statusOk c) : statusOk (doAnswerAccept c resp).1 := by
  simp only [doAnswerAccept]
  cases hq : c.state.pendingQuestion with
  | none => exact h
  | some q => exact statusOk_doSubmitClarification c q (suggestedAnswer q) resp h

theorem statusOk_doSubmitConfirmation (c : Ctrl) (d : String)
    (e : Option (Int × String)) (resp : Except String ConfirmData) (h : statusOk c) :
    statusOk (doSubmitConfirmation c d e resp).1 := by
  simp only [doSubmitConfirmation]
  split
  · exact h
  · cases hpa : c.state.pendingAction with
    | none => exact h
    | some current =>
      cases resp with
      | ok data =>
        have := statusLegal_normalize data.status
        cases hpd : data.pending_action with
        | some pa =>
          simp only [hpd]
          split
          · simp only [statusOk, statusLegal] at this ⊢
            simpa using this
          · simp only [statusOk, statusLegal] at this ⊢
            simpa using this
        | none =>
          simp only [hpd]
          simp only [statusOk, statusLegal] at this ⊢
          simpa using this
      | error m =>
        simp only [statusOk] at h ⊢; simpa using h

theorem statusOk_doConfirmAccept (c : Ctrl) (rc : Int) (st : String)
    (resp : Except String ConfirmData) (h : statusOk c) :
    statusOk (doConfirmAccept c rc st resp).1 := by
  simp only [doConfirmAccept]
  split
  · exact h
  · exact statusOk_doSubmitConfirmation c _ _ resp h

theorem statusOk_doConfirmDeny (c : Ctrl) (r a : String)
    (resp : Except String ConfirmData) (h : statusOk c) :
    statusOk (doConfirmDeny c r a resp).1 :=
  statusOk_doSubmitConfirmation c _ _ resp h

theorem statusOk_doPoll (c : Ctrl) (s : Except String StatusData)
    (d : Except String (Option QuestionPayload)) (r : Except String String)
    (rep : Except String ReportContent) (logs : Except String (List LogEntry))
    (h : statusOk c) : statusOk (doPoll c s d r rep logs).1 := by
  simp only [doPoll]
  split
  · exact h
  · cases s with
    | error m => simp only [statusOk] at h ⊢; simpa using h
    | ok st =>
      simp only []
      have hN := statusLegal_normalize st.status
      split
      · split
        · simp only [statusOk, statusLegal] at hN ⊢
          simpa using hN
        · simp only [statusOk, statusLegal] at hN ⊢
          simpa using hN
      · split
        · simp only [statusOk, statusLegal] at hN ⊢
          simpa using hN
        · simp only [statusOk, statusLegal] at hN ⊢
          simpa using hN

theorem statusOk_stepC (c : Ctrl) (e : Ev) (h : statusOk c) : statusOk (stepC c e) := by
  cases e with
  | newSession => exact statusOk_doFresh c
  | start p rt rm resp => exact statusOk_doStart c p rt rm resp h
  | answer v resp => exact statusOk_doAnswer c v resp h
  | answerAccept resp => exact statusOk_doAnswerAccept c resp h
  | confirmAccept rc st resp => exact statusOk_doConfirmAccept c rc st resp h
  | confirmDeny r a resp => exact statusOk_doConfirmDeny c r a resp h
  | poll s d r rep logs => exact statusOk_doPoll c s d r rep logs h

/-- C9: every status adopted from a remote response passes through
`normalizeStatus` — a string other than the six remote lifecycle values is
stored as "idle" — and consequently every reachable session status is one
of the seven enumerated lifecycle values. -/
theorem C9_status_always_enumerated :
    (∀ s : String, (s = "pending" ∨ s = "waiting_user" ∨ s = "running" ∨
        s = "success" ∨ s = "failed" ∨ s = "aborted") → normalizeStatus s = s) ∧
    (∀ s : String, ¬ (s = "pending" ∨ s = "waiting_user" ∨ s = "running" ∨
        s = "success" ∨ s = "failed" ∨ s = "aborted") → normalizeStatus s = "idle") ∧
    (∀ (pollIntervalMs : Nat) (evs : List Ev),
      (run pollIntervalMs evs).state.status ∈
        (["idle", "pending", "waiting_user", "running", "success", "failed",
          "aborted"] : List String)) := by
  refine ⟨?_, ?_, ?_⟩
  · intro s h
    simp [normalizeStatus, h]
  · intro s h
    simp [normalizeStatus, h]
  · intro n evs
    have hgen : ∀ c : Ctrl, statusOk c → statusOk (evs.foldl stepC c) := by
      induction evs with
      | nil => intro c h; exact h
      | cons e rest ih => intro c h; exact ih _ (statusOk_stepC c e h)
    exact hgen (initCtrl n) (statusOk_init _)

/-- Witness for C9 at a concrete remote status string. -/
theorem C9_status_always_enumerated_witness :
    normalizeStatus "running" = "running" ∧ normalizeStatus "exploded" = "idle" := by
  refine ⟨C9_status_always_enumerated.1 "running" ?_, C9_status_always_enumerated.2.1 "exploded" ?_⟩
  · exact Or.inr (Or.inr (Or.inl rfl))
  · decide

/-! ### C10: a blank prompt is a complete no-op -/

/-- C10: invoking Start with a prompt that trims to the empty string leaves
the controller completely unchanged and issues no remote call. -/
theorem C10_blank_prompt_noop (c : Ctrl) (prompt : String) (cfgRT cfgRM : Option String)
    (resp : Except String StartData) (h : strTrim prompt = "") :
    step c (.start prompt cfgRT cfgRM resp) = (c, []) := by
  simp [step, doStart, h]

/-- Witness for C10 at a whitespace-only prompt. -/
theorem C10_blank_prompt_noop_witness :
    step (initCtrl 3000) (.start "   " none none (.error "boom")) = (initCtrl 3000, []) :=
  C10_blank_prompt_noop (initCtrl 3000) "   " none none (.error "boom") (by decide)

/-! ### C8: what a failed start leaves behind

The claim says a failed start leaves the session with no experiment id and
idle-equivalent status.  The code's failure path never touches
`experimentId` or `status`, so a session that had a previous experiment
retains its id and status; the claim holds only from an id-less idle
session. -/

/-- Counterexample to C8 as stated: after a successful start (id "e1",
status "running"), a second start whose remote call fails leaves the
session still holding experiment id "e1" and status "running" — not
id-less and not idle. -/
theorem C8_start_failure_counterexample :
    (run 3000 [.start "go" none none (.ok ⟨"e1", "running", none, none, none, none, none⟩),
      .start "again" none none (.error "boom")]).state.experimentId = some "e1" ∧
    (run 3000 [.start "go" none none (.ok ⟨"e1", "running", none, none, none, none, none⟩),
      .start "again" none none (.error "boom")]).state.status = "running" := by
  constructor
  · rfl
  · rfl

/-- C8 (amended): when the Start operation's remote call fails, the
operation appends an error transcript entry and leaves the experiment id
and the status exactly as they were before the start — in particular a
session with no experiment id and idle status stays id-less and idle. -/
theorem C8_start_failure_amended (c : Ctrl) (prompt : String)
    (cfgRT cfgRM : Option String) (m : String) (hp : strTrim prompt ≠ "") :
    (step c (.start prompt cfgRT cfgRM (.error m))).1.state.experimentId =
      c.state.experimentId ∧
    (step c (.start prompt cfgRT cfgRM (.error m))).1.state.status = c.state.status ∧
    (step c (.start prompt cfgRT cfgRM (.error m))).1.state.messages.getLast? =
      some ⟨"system", "error", m⟩ := by
  simp only [step, doStart]
  rw [if_neg hp]
  refine ⟨by simp, by simp, ?_⟩
  simp only [updatePlaceholder_messages]
  rw [pushMsg, pushMsg]
  simp

/-- Witness for C8 (amended) from a fresh controller. -/
theorem C8_start_failure_amended_witness :
    (step (initCtrl 3000) (.start "go" none none (.error "boom"))).1.state.experimentId =
      none ∧
    (step (initCtrl 3000) (.start "go" none none (.error "boom"))).1.state.status =
      "idle" ∧
    (step (initCtrl 3000) (.start "go" none none (.error "boom"))).1.state.messages.getLast? =
      some ⟨"system", "error", "boom"⟩ := by
  have h := C8_start_failure_amended (initCtrl 3000) "go" none none "boom" (by decide)
  exact h

/-! ### C7: terminal-artifact retrieval happens at most once per experiment -/

theorem isTerminal_ne_waiting (s : String) (h : isTerminal s = true) :
    ¬ s = "waiting_user" := by
  intro he
  subst he
  simp [isTerminal] at h

theorem doFetchFailureDiagnostics_calls (c : Ctrl) (logsResp)
    (hid : ¬ c.state.experimentId = none) :
    (doFetchFailureDiagnostics c logsResp).2 = [ApiCall.getLogs] := by
  simp only [doFetchFailureDiagnostics]
  rw [if_neg hid]
  cases logsResp with
  | ok entries => rfl
  | error m => rfl

theorem doFetchTerminalArtifacts_of_fetched (c : Ctrl) (r rep logs)
    (h : c.terminalArtifactsFetched = true) :
    doFetchTerminalArtifacts c r rep logs = (c, []) := by
  simp [doFetchTerminalArtifacts, h]

theorem doFetchTerminalArtifacts_calls (c : Ctrl) (r rep logs)
    (hid : ¬ c.state.experimentId = none) (hf : c.terminalArtifactsFetched = false) :
    (doFetchTerminalArtifacts c r rep logs).2 =
      (if c.state.status = "failed" then
        [ApiCall.getResults, ApiCall.getReport, ApiCall.getLogs]
      else [ApiCall.getResults, ApiCall.getReport]) := by
  simp only [doFetchTerminalArtifacts]
  rw [if_neg (by simp [hid, hf])]
  by_cases hfail : c.state.status = "failed"
  · rw [if_pos (by simp [hfail]), if_pos hfail]
    rw [doFetchFailureDiagnostics_calls _ _ (by simp [hid])]
    rfl
  · rw [if_neg (by simp [hfail]), if_neg hfail]


theorem doFetchTerminalArtifacts_sets_flag (c : Ctrl) (r rep logs)
    (hid : ¬ c.state.experimentId = none) (hf : c.terminalArtifactsFetched = false) :
    (doFetchTerminalArtifacts c r rep logs).1.terminalArtifactsFetched = true := by
  simp only [doFetchTerminalArtifacts]
  rw [if_neg (by simp [hid, hf])]
  split
  · simp
  · simp

theorem doFetchTerminalArtifacts_count_le_one (c : Ctrl) (r rep logs) (x : ApiCall) :
    (doFetchTerminalArtifacts c r rep logs).2.count x ≤ 1 := by
  by_cases hg : c.state.experimentId = none ∨ c.terminalArtifactsFetched
  · simp [doFetchTerminalArtifacts, hg]
  · have hid : ¬ c.state.experimentId = none := fun h => hg (Or.inl h)
    have hf : c.terminalArtifactsFetched = false := by
      revert hg
      cases c.terminalArtifactsFetched <;> simp
    rw [doFetchTerminalArtifacts_calls c r rep logs hid hf]
    split <;> cases x <;> decide

theorem doFetchTerminalArtifacts_fetched_mono (c : Ctrl) (r rep logs)
    (h : c.terminalArtifactsFetched = true) :
    (doFetchTerminalArtifacts c r rep logs).1.terminalArtifactsFetched = true := by
  rw [doFetchTerminalArtifacts_of_fetched c r rep logs h]
  exact h

theorem mem_doPollWaiting_calls (c : Ctrl) (st : StatusData) (d) :
    ∀ x ∈ (doPollWaiting c st d).2, x = ApiCall.getExperiment := by
  intro x
  simp only [doPollWaiting, doRefreshPendingQuestion]
  repeat' split
  all_goals simp

theorem mem_doAnswer_calls (c : Ctrl) (v : String) (resp) :
    ∀ x ∈ (doAnswer c v resp).2, x = ApiCall.answerQuestion := by
  intro x
  simp only [doAnswer, doSubmitClarification]
  repeat' split
  all_goals simp

theorem mem_doAnswerAccept_calls (c : Ctrl) (resp) :
    ∀ x ∈ (doAnswerAccept c resp).2, x = ApiCall.answerQuestion := by
  intro x
  simp only [doAnswerAccept, doSubmitClarification]
  repeat' split
  all_goals simp

theorem mem_doSubmitConfirmation_calls (c : Ctrl) (dec e resp) :
    ∀ x ∈ (doSubmitConfirmation c dec e resp).2, x = ApiCall.submitConfirmation := by
  intro x
  simp only [doSubmitConfirmation]
  repeat' split
  all_goals simp

@[simp] theorem doSubmitClarification_fetched (c : Ctrl) (q v resp) :
    (doSubmitClarification c q v resp).1.terminalArtifactsFetched =
      c.terminalArtifactsFetched := by
  simp only [doSubmitClarification]
  repeat' split
  all_goals simp

@[simp] theorem doAnswer_fetched (c : Ctrl) (v resp) :
    (doAnswer c v resp).1.terminalArtifactsFetched = c.terminalArtifactsFetched := by
  simp only [doAnswer]
  repeat' split
  all_goals simp

@[simp] theorem doAnswerAccept_fetched (c : Ctrl) (resp) :
    (doAnswerAccept c resp).1.terminalArtifactsFetched = c.terminalArtifactsFetched := by
  simp only [doAnswerAccept]
  repeat' split
  all_goals simp

@[simp] theorem doSubmitConfirmation_fetched (c : Ctrl) (dec e resp) :
    (doSubmitConfirmation c dec e resp).1.terminalArtifactsFetched =
      c.terminalArtifactsFetched := by
  simp only [doSubmitConfirmation]
  repeat' split
  all_goals simp

@[simp] theorem doConfirmAccept_fetched (c : Ctrl) (rc sd resp) :
    (doConfirmAccept c rc sd resp).1.terminalArtifactsFetched =
      c.terminalArtifactsFetched := by
  simp only [doConfirmAccept]
  split
  · rfl
  · simp

@[simp] theorem doConfirmDeny_fetched (c : Ctrl) (r a resp) :
    (doConfirmDeny c r a resp).1.terminalArtifactsFetched =
      c.terminalArtifactsFetched := by
  simp only [doConfirmDeny]
  simp

/-- Helper: an artifact call cannot occur in a list of status/experiment calls. -/
theorem notmem_status_exp (x : ApiCall) (L1 L2 : List ApiCall)
    (h1 : ∀ y ∈ L1, y = ApiCall.getExperiment) (h2 : L2 = [])
    (hx1 : x ≠ ApiCall.getStatus) (hx2 : x ≠ ApiCall.getExperiment) :
    x ∉ ApiCall.getStatus :: L1 ++ L2 := by
  intro hmem
  rcases List.mem_cons.mp hmem with h | h
  · exact hx1 h
  · rcases List.mem_append.mp h with h | h
    · exact hx2 (h1 x h)
    · rw [h2] at h
      cases h

/-- Once the flag is set, a poll tick issues none of the three artifact
calls and keeps the flag set. -/
theorem doPoll_suppressed (c : Ctrl) (s d r rep logs)
    (hf : c.terminalArtifactsFetched = true) :
    (ApiCall.getResults ∉ (doPoll c s d r rep logs).2 ∧
     ApiCall.getReport ∉ (doPoll c s d r rep logs).2 ∧
     ApiCall.getLogs ∉ (doPoll c s d r rep logs).2) ∧
    (doPoll c s d r rep logs).1.terminalArtifactsFetched = true := by
  simp only [doPoll]
  split
  · simp [hf]
  · cases s with
    | error m => simp [hf]
    | ok st =>
      simp only []
      split
      · split
        · rw [doFetchTerminalArtifacts_of_fetched _ r rep logs (by simp [hf])]
          refine ⟨⟨?_, ?_, ?_⟩, by simp [hf]⟩ <;>
            exact notmem_status_exp _ _ _
              (mem_doPollWaiting_calls _ st d) rfl (by decide) (by decide)
        · refine ⟨⟨?_, ?_, ?_⟩, by simp [hf]⟩ <;>
            exact notmem_status_exp _ _ _
              (mem_doPollWaiting_calls _ st d) rfl (by decide) (by decide)
      · split
        · rw [doFetchTerminalArtifacts_of_fetched _ r rep logs (by simp [hf])]
          refine ⟨⟨?_, ?_, ?_⟩, by simp [hf]⟩ <;>
            exact notmem_status_exp _ _ _ (by intro y hy; cases hy) rfl
              (by decide) (by decide)
        · refine ⟨⟨?_, ?_, ?_⟩, by simp [hf]⟩ <;>
            exact notmem_status_exp _ _ _ (by intro y hy; cases hy) rfl
              (by decide) (by decide)

/-- The behaviour of a poll tick that observes a terminal status with the
artifact flag still clear. -/
theorem doPoll_terminal (c : Ctrl) (eid : String) (st : StatusData) (d r rep logs)
    (hid : c.state.experimentId = some eid)
    (hf : c.terminalArtifactsFetched = false)
    (ht : isTerminal (normalizeStatus st.status) = true) :
    (doPoll c (.ok st) d r rep logs).1.pollTimerActive = false ∧
    (doPoll c (.ok st) d r rep logs).1.state.pollingEnabled = false ∧
    (doPoll c (.ok st) d r rep logs).1.state.pendingQuestion = none ∧
    (doPoll c (.ok st) d r rep logs).1.state.pendingAction = none ∧
    (doPoll c (.ok st) d r rep logs).1.terminalArtifactsFetched = true ∧
    (doPoll c (.ok st) d r rep logs).2.count ApiCall.getResults = 1 ∧
    (doPoll c (.ok st) d r rep logs).2.count ApiCall.getReport = 1 ∧
    (doPoll c (.ok st) d r rep logs).2.count ApiCall.getLogs =
      (if normalizeStatus st.status = "failed" then 1 else 0) := by
  have hid' : ¬ c.state.experimentId = none := by simp [hid]
  have hw : ¬ ((applyStatus c st).state.status = "waiting_user") := by
    rw [applyStatus_status]
    exact isTerminal_ne_waiting _ ht
  simp only [doPoll]
  rw [if_neg hid']
  simp only [if_neg hw]
  simp only [applyStatus_status]
  rw [if_pos ht]
  refine ⟨by simp, by simp, by simp, by simp, ?_, ?_, ?_, ?_⟩
  · rw [updatePlaceholder_fetched]
    apply doFetchTerminalArtifacts_sets_flag
    · simp [hid]
    · simp [hf]
  · rw [doFetchTerminalArtifacts_calls _ r rep logs ?ha1 ?hb1]
    case ha1 => simp [hid]
    case hb1 => simp [hf]
    simp only [pushMsg_status, stopPolling_status, applyStatus_status]
    split <;> decide
  · rw [doFetchTerminalArtifacts_calls _ r rep logs ?ha2 ?hb2]
    case ha2 => simp [hid]
    case hb2 => simp [hf]
    simp only [pushMsg_status, stopPolling_status, applyStatus_status]
    split <;> decide
  · rw [doFetchTerminalArtifacts_calls _ r rep logs ?ha3 ?hb3]
    case ha3 => simp [hid]
    case hb3 => simp [hf]
    simp only [pushMsg_status, stopPolling_status, applyStatus_status]
    split <;> decide

theorem count_zero_of_all (L : List ApiCall) (y : ApiCall)
    (hall : ∀ z ∈ L, z = y) (x : ApiCall) (hxy : x ≠ y) : L.count x = 0 :=
  List.count_eq_zero.mpr (fun hm => hxy (hall x hm))

theorem poll_calls_count (L1 L2 : List ApiCall) (x : ApiCall)
    (hxs : x ≠ ApiCall.getStatus) (h1 : ∀ z ∈ L1, z = ApiCall.getExperiment)
    (hxe : x ≠ ApiCall.getExperiment) (h2 : L2.count x ≤ 1) :
    (ApiCall.getStatus :: L1 ++ L2).count x ≤ 1 := by
  rw [List.count_append, List.count_cons, count_zero_of_all L1 _ h1 x hxe]
  have hb : (ApiCall.getStatus == x) = false := by
    cases x <;> simp_all
  simpa [hb] using h2

theorem poll_calls_pos (L1 L2 : List ApiCall) (x : ApiCall)
    (hxs : x ≠ ApiCall.getStatus) (h1 : ∀ z ∈ L1, z = ApiCall.getExperiment)
    (hxe : x ≠ ApiCall.getExperiment)
    (hpos : 0 < (ApiCall.getStatus :: L1 ++ L2).count x) : 0 < L2.count x := by
  rw [List.count_append, List.count_cons, count_zero_of_all L1 _ h1 x hxe] at hpos
  have hb : (ApiCall.getStatus == x) = false := by
    cases x <;> simp_all
  simpa [hb] using hpos

theorem doFetchTerminalArtifacts_pos_flag (c : Ctrl) (r rep logs) (x : ApiCall)
    (h : 0 < (doFetchTerminalArtifacts c r rep logs).2.count x) :
    (doFetchTerminalArtifacts c r rep logs).1.terminalArtifactsFetched = true := by
  by_cases hg : c.state.experimentId = none ∨ c.terminalArtifactsFetched
  · exfalso
    have heq : doFetchTerminalArtifacts c r rep logs = (c, []) := by
      simp [doFetchTerminalArtifacts, hg]
    rw [heq] at h
    simp at h
  · have hid : ¬ c.state.experimentId = none := fun hh => hg (Or.inl hh)
    have hf : c.terminalArtifactsFetched = false := by
      revert hg
      cases c.terminalArtifactsFetched <;> simp
    exact doFetchTerminalArtifacts_sets_flag c r rep logs hid hf

/-- Events that do not begin a new experiment. -/
def keepsExperiment : Ev → Prop
  | .newSession => False
  | .start _ _ _ _ => False
  | _ => True

/-- One operation, accumulating the remote calls issued so far. -/
def stepT (p : Ctrl × List ApiCall) (e : Ev) : Ctrl × List ApiCall :=
  ((step p.1 e).1, p.2 ++ (step p.1 e).2)

/-- A run from `c` collecting every remote call issued. -/
def runT (c : Ctrl) (evs : List Ev) : Ctrl × List ApiCall := evs.foldl stepT (c, [])

theorem foldl_stepT_acc : ∀ (evs : List Ev) (c : Ctrl) (acc : List ApiCall),
    evs.foldl stepT (c, acc) =
      ((evs.foldl stepT (c, [])).1, acc ++ (evs.foldl stepT (c, [])).2) := by
  intro evs
  induction evs with
  | nil => intro c acc; simp
  | cons e rest ih =>
    intro c acc
    simp only [List.foldl_cons, stepT]
    rw [ih (step c e).1 (acc ++ (step c e).2), ih (step c e).1 ([] ++ (step c e).2)]
    simp

theorem runT_cons (c : Ctrl) (e : Ev) (evs : List Ev) :
    runT c (e :: evs) =
      ((runT (stepC c e) evs).1, (step c e).2 ++ (runT (stepC c e) evs).2) := by
  have h1 : runT c (e :: evs) = evs.foldl stepT (stepT (c, []) e) := by
    simp [runT]
  have h2 : stepT (c, []) e = ((step c e).1, (step c e).2) := by simp [stepT]
  rw [h1, h2, foldl_stepT_acc evs (step c e).1 (step c e).2]
  simp [runT, stepC]

/-- Per-operation accounting of the three artifact calls: a single operation
issues each at most once, issuing one sets the flag, and a set flag
suppresses them (as long as no new experiment is begun). -/
theorem step_artifact_emit (c : Ctrl) (e : Ev) (hk : keepsExperiment e)
    (x : ApiCall)
    (hx : x = ApiCall.getResults ∨ x = ApiCall.getReport ∨ x = ApiCall.getLogs) :
    (step c e).2.count x ≤ 1 ∧
    (0 < (step c e).2.count x → (step c e).1.terminalArtifactsFetched = true) ∧
    (c.terminalArtifactsFetched = true →
      (step c e).2.count x = 0 ∧ (step c e).1.terminalArtifactsFetched = true) := by
  have hxs : x ≠ ApiCall.getStatus := by rcases hx with h | h | h <;> subst h <;> decide
  have hxe : x ≠ ApiCall.getExperiment := by
    rcases hx with h | h | h <;> subst h <;> decide
  have hxa : x ≠ ApiCall.answerQuestion := by
    rcases hx with h | h | h <;> subst h <;> decide
  have hxc : x ≠ ApiCall.submitConfirmation := by
    rcases hx with h | h | h <;> subst h <;> decide
  cases e with
  | newSession => exact hk.elim
  | start p rt rm resp => exact hk.elim
  | answer v resp =>
    have hz : (doAnswer c v resp).2.count x = 0 :=
      count_zero_of_all _ _ (mem_doAnswer_calls c v resp) x hxa
    exact ⟨by simp [step, hz], by simp [step, hz], fun hf => ⟨by simp [step, hz],
      by simp [step, hf]⟩⟩
  | answerAccept resp =>
    have hz : (doAnswerAccept c resp).2.count x = 0 :=
      count_zero_of_all _ _ (mem_doAnswerAccept_calls c resp) x hxa
    exact ⟨by simp [step, hz], by simp [step, hz], fun hf => ⟨by simp [step, hz],
      by simp [step, hf]⟩⟩
  | confirmAccept rc sd resp =>
    have hz : (doConfirmAccept c rc sd resp).2.count x = 0 := by
      apply count_zero_of_all _ ApiCall.submitConfirmation _ x hxc
      intro z hz
      simp only [doConfirmAccept] at hz
      by_cases hg : c.state.pendingAction = none ∨ c.state.experimentId = none
      · rw [if_pos hg] at hz; cases hz
      · rw [if_neg hg] at hz
        exact mem_doSubmitConfirmation_calls c _ _ resp z hz
    exact ⟨by simp [step, hz], by simp [step, hz], fun hf => ⟨by simp [step, hz],
      by simp [step, hf]⟩⟩
  | confirmDeny r a resp =>
    have hz : (doConfirmDeny c r a resp).2.count x = 0 := by
      apply count_zero_of_all _ ApiCall.submitConfirmation _ x hxc
      intro z hz
      exact mem_doSubmitConfirmation_calls c _ _ resp z hz
    exact ⟨by simp [step, hz], by simp [step, hz], fun hf => ⟨by simp [step, hz],
      by simp [step, hf]⟩⟩
  | poll s d r rep logs =>
    refine ⟨?_, ?_, ?_⟩
    · simp only [step, doPoll]
      split
      · simp
      · cases s with
        | error m =>
          have : ([ApiCall.getStatus]).count x = 0 :=
            count_zero_of_all _ _ (by simp) x hxs
          simp [this]
        | ok st =>
          simp only []
          split
          · split
            · exact poll_calls_count _ _ x hxs (mem_doPollWaiting_calls _ st d) hxe
                (doFetchTerminalArtifacts_count_le_one _ r rep logs x)
            · exact poll_calls_count _ _ x hxs (mem_doPollWaiting_calls _ st d) hxe
                (by simp)
          · split
            · exact poll_calls_count _ _ x hxs (by intro z hz; cases hz) hxe
                (doFetchTerminalArtifacts_count_le_one _ r rep logs x)
            · exact poll_calls_count _ _ x hxs (by intro z hz; cases hz) hxe
                (by simp)
    · simp only [step, doPoll]
      split
      · simp
      · cases s with
        | error m =>
          intro hpos
          exfalso
          have hzz : ([ApiCall.getStatus]).count x = 0 :=
            count_zero_of_all _ _ (by simp) x hxs
          simp [hzz] at hpos
        | ok st =>
          simp only []
          split
          · split
            · intro hpos
              rw [updatePlaceholder_fetched]
              exact doFetchTerminalArtifacts_pos_flag _ r rep logs x
                (poll_calls_pos _ _ x hxs (mem_doPollWaiting_calls _ st d) hxe hpos)
            · intro hpos
              exfalso
              have := poll_calls_pos _ _ x hxs (mem_doPollWaiting_calls _ st d) hxe hpos
              simp at this
          · split
            · intro hpos
              rw [updatePlaceholder_fetched]
              exact doFetchTerminalArtifacts_pos_flag _ r rep logs x
                (poll_calls_pos _ _ x hxs (by intro z hz; cases hz) hxe hpos)
            · intro hpos
              exfalso
              have := poll_calls_pos _ _ x hxs (by intro z hz; cases hz) hxe hpos
              simp at this
    · intro hf
      obtain ⟨⟨hr1, hr2, hr3⟩, hftd⟩ := doPoll_suppressed c s d r rep logs hf
      refine ⟨?_, hftd⟩
      apply List.count_eq_zero.mpr
      rcases hx with h | h | h <;> subst h
      · exact hr1
      · exact hr2
      · exact hr3

/-- Across any run that never begins a new experiment, each artifact call is
issued at most once, and not at all once the flag is set. -/
theorem trace_artifact_count (x : ApiCall)
    (hx : x = ApiCall.getResults ∨ x = ApiCall.getReport ∨ x = ApiCall.getLogs) :
    ∀ (evs : List Ev) (c : Ctrl), (∀ e ∈ evs, keepsExperiment e) →
      (runT c evs).2.count x ≤
        (if c.terminalArtifactsFetched = true then 0 else 1) := by
  intro evs
  induction evs with
  | nil =>
    intro c h
    simp only [runT, List.foldl_nil]
    split <;> simp
  | cons e rest ih =>
    intro c h
    rw [runT_cons]
    simp only [List.count_append]
    obtain ⟨h1, h2, h3⟩ :=
      step_artifact_emit c e (h e (List.mem_cons_self ..)) x hx
    have hrest := ih (stepC c e) (fun e' he' => h e' (List.mem_cons_of_mem _ he'))
    by_cases hf : c.terminalArtifactsFetched = true
    · obtain ⟨hz, hft⟩ := h3 hf
      rw [if_pos hf, hz]
      rw [if_pos (by simpa [stepC] using hft)] at hrest
      simpa using hrest
    · rw [if_neg hf]
      by_cases hz : (step c e).2.count x = 0
      · rw [hz]
        have hle : (if (stepC c e).terminalArtifactsFetched = true then 0 else 1) ≤ 1 := by
          split <;> simp
        have hcomb := le_trans hrest hle
        simpa using hcomb
      · have hpos : 0 < (step c e).2.count x := Nat.pos_of_ne_zero hz
        have hft := h2 hpos
        rw [if_pos (by simpa [stepC] using hft)] at hrest
        omega

theorem pushMsg_messages_le (c : Ctrl) (r k m : String) :
    (pushMsg c r k m).state.messages.length ≤ c.state.messages.length + 1 := by
  unfold pushMsg
  split
  · split
    · simp
    · simp
  · simp

/-- C7: once a poll tick observes a terminal status, polling stops, both
pending fields are cleared, the artifact flag is set, and the tick fetches
results and the report exactly once — logs exactly when the terminal status
is "failed"; with the flag set, further poll ticks fetch none of the three;
across any run that starts no new experiment each artifact call is issued
at most once; and the diagnostics use at most five error-like log entries,
appended as at most one transcript entry. -/
theorem C7_terminal_artifacts_once :
    (∀ (c : Ctrl) (eid : String) (st : StatusData)
        (d : Except String (Option QuestionPayload)) (r : Except String String)
        (rep : Except String ReportContent) (logs : Except String (List LogEntry)),
      c.state.experimentId = some eid → c.terminalArtifactsFetched = false →
      isTerminal (normalizeStatus st.status) = true →
      ((doPoll c (.ok st) d r rep logs).1.pollTimerActive = false ∧
       (doPoll c (.ok st) d r rep logs).1.state.pollingEnabled = false ∧
       (doPoll c (.ok st) d r rep logs).1.state.pendingQuestion = none ∧
       (doPoll c (.ok st) d r rep logs).1.state.pendingAction = none ∧
       (doPoll c (.ok st) d r rep logs).1.terminalArtifactsFetched = true ∧
       (doPoll c (.ok st) d r rep logs).2.count ApiCall.getResults = 1 ∧
       (doPoll c (.ok st) d r rep logs).2.count ApiCall.getReport = 1 ∧
       (doPoll c (.ok st) d r rep logs).2.count ApiCall.getLogs =
         (if normalizeStatus st.status = "failed" then 1 else 0))) ∧
    (∀ (c : Ctrl) (s : Except String StatusData)
        (d : Except String (Option QuestionPayload)) (r : Except String String)
        (rep : Except String ReportContent) (logs : Except String (List LogEntry)),
      c.terminalArtifactsFetched = true →
      ((ApiCall.getResults ∉ (doPoll c s d r rep logs).2 ∧
        ApiCall.getReport ∉ (doPoll c s d r rep logs).2 ∧
        ApiCall.getLogs ∉ (doPoll c s d r rep logs).2) ∧
       (doPoll c s d r rep logs).1.terminalArtifactsFetched = true)) ∧
    (∀ (evs : List Ev) (c : Ctrl), (∀ e ∈ evs, keepsExperiment e) →
      ((runT c evs).2.count ApiCall.getResults ≤ 1 ∧
       (runT c evs).2.count ApiCall.getReport ≤ 1 ∧
       (runT c evs).2.count ApiCall.getLogs ≤ 1)) ∧
    (∀ entries : List LogEntry, (criticalLines entries).length ≤ 5) ∧
    (∀ (c : Ctrl) (entries : List LogEntry),
      (doFetchFailureDiagnostics c (.ok entries)).1.state.messages.length ≤
        c.state.messages.length + 1) := by
  refine ⟨?_, ?_, ?_, ?_, ?_⟩
  · intro c eid st d r rep logs hid hf ht
    exact doPoll_terminal c eid st d r rep logs hid hf ht
  · intro c s d r rep logs hf
    exact doPoll_suppressed c s d r rep logs hf
  · intro evs c h
    have hb : ∀ x : ApiCall,
        (x = ApiCall.getResults ∨ x = ApiCall.getReport ∨ x = ApiCall.getLogs) →
        (runT c evs).2.count x ≤ 1 := by
      intro x hx
      refine le_trans (trace_artifact_count x hx evs c h) ?_
      split <;> simp
    exact ⟨hb _ (Or.inl rfl), hb _ (Or.inr (Or.inl rfl)), hb _ (Or.inr (Or.inr rfl))⟩
  · intro entries
    simp only [criticalLines]
    have h1 := List.length_filter_le (fun l => l != "")
      (((entries.filter isErrorLog).take 5).map formatLog)
    have h2 : (((entries.filter isErrorLog).take 5).map formatLog).length =
        ((entries.filter isErrorLog).take 5).length := by simp
    have h3 : ((entries.filter isErrorLog).take 5).length ≤ 5 := by
      rw [List.length_take]
      exact min_le_left _ _
    omega
  · intro c entries
    simp only [doFetchFailureDiagnostics]
    split
    · simp
    · split
      · exact pushMsg_messages_le _ _ _ _
      · simp

/-- Witness for C7: a concrete poll tick observing status "success" with
the flag clear sets the flag and issues exactly one results fetch. -/
theorem C7_terminal_artifacts_once_witness :
    (doPoll { initCtrl 3000 with
        state := { (initCtrl 3000).state with experimentId := some "e1" } }
      (.ok ⟨"success", none, none, none, none, none, none⟩) (.error "x") (.ok "R")
      (.ok .other) (.error "L")).1.terminalArtifactsFetched = true ∧
    (doPoll { initCtrl 3000 with
        state := { (initCtrl 3000).state with experimentId := some "e1" } }
      (.ok ⟨"success", none, none, none, none, none, none⟩) (.error "x") (.ok "R")
      (.ok .other) (.error "L")).2.count ApiCall.getResults = 1 := by
  have h := C7_terminal_artifacts_once.1
    { initCtrl 3000 with
      state := { (initCtrl 3000).state with experimentId := some "e1" } }
    "e1" ⟨"success", none, none, none, none, none, none⟩ (.error "x") (.ok "R")
    (.ok .other) (.error "L") rfl rfl (by decide)
  exact ⟨h.2.2.2.2.1, h.2.2.2.2.2.1⟩

/-! ## C3: snapshots and sharing (`getState`)

`getState` returns `{ ...this.state, messages: [...this.state.messages] }`:
a fresh top-level object and a fresh messages array, but every nested
object — in particular the `polling` configuration object, which the
controller later mutates in place (`this.state.polling.enabled = ...`) —
is the same reference in the snapshot and in the session.  To make
reference sharing expressible, the polling object lives in an explicit
heap (`List PollingCfg`) and the session holds an index into it; all other
fields are value-like in this model. -/

structure PollingCfg where
  enabled : Bool
  intervalMs : Nat
deriving DecidableEq

/-- The runtime representation of `ExperimentSession`: the nested `polling`
object is stored behind the reference `pollingRef`. -/
structure SessionObj where
  experimentId : Option String
  status : String
  pendingQuestion : Option ClarificationQuestion
  pendingAction : Option ConfirmationAction
  messages : List ChatMessage
  pollingRef : Nat
deriving DecidableEq

/-- The deep value of a session under a heap. -/
structure SessionValue where
  experimentId : Option String
  status : String
  pendingQuestion : Option ClarificationQuestion
  pendingAction : Option ConfirmationAction
  messages : List ChatMessage
  polling : PollingCfg
deriving DecidableEq

def readSession (h : List PollingCfg) (s : SessionObj) : SessionValue :=
  ⟨s.experimentId, s.status, s.pendingQuestion, s.pendingAction, s.messages,
    h.getD s.pollingRef ⟨false, 0⟩⟩

/-- `getState`: the spread copies each field value — for the nested polling
object that value is the reference — and rebuilds the messages array from
the same message values. -/
def getState (s : SessionObj) : SessionObj :=
  { s with messages := s.messages.map id }

/-- Mutating the polling object a reference points to. -/
def mutatePolling (h : List PollingCfg) (ref : Nat) (v : PollingCfg) :
    List PollingCfg :=
  h.set ref v

/-- Counterexample to C3 as stated: a snapshot handed out by `getState` is
not a value copy — mutating the snapshot's polling object (one "part" of
the snapshot) changes the session's own state, because the polling object
is shared by reference. -/
theorem C3_snapshot_counterexample :
    readSession
        (mutatePolling [⟨false, 3000⟩]
          (getState ⟨none, "idle", none, none, [], 0⟩).pollingRef ⟨true, 3000⟩)
        ⟨none, "idle", none, none, [], 0⟩ ≠
      readSession [⟨false, 3000⟩] ⟨none, "idle", none, none, [], 0⟩ := by
  decide

/-- C3 (amended): `getState` produces a shallow copy — the snapshot's
top-level record and messages array are fresh values, but the nested
polling object is shared by reference with the session, so mutating the
snapshot's polling configuration rewrites exactly the session's polling
value and leaves every other session field unchanged. -/
theorem C3_snapshot_shallow_amended (h : List PollingCfg) (s : SessionObj)
    (v : PollingCfg) (href : s.pollingRef < h.length) :
    (getState s).pollingRef = s.pollingRef ∧
    (getState s).messages = s.messages ∧
    readSession (mutatePolling h (getState s).pollingRef v) s =
      { readSession h s with polling := v } := by
  refine ⟨rfl, by simp [getState], ?_⟩
  simp only [readSession, mutatePolling, getState]
  have hget : (h.set s.pollingRef v)[s.pollingRef]? = some v :=
    List.getElem?_set_self href
  simp [List.getD, hget]

/-- Witness for C3 (amended) at a concrete heap and session. -/
theorem C3_snapshot_shallow_amended_witness :
    readSession
        (mutatePolling [⟨false, 3000⟩]
          (getState ⟨none, "idle", none, none, [], 0⟩).pollingRef ⟨true, 99⟩)
        ⟨none, "idle", none, none, [], 0⟩ =
      { readSession [⟨false, 3000⟩] ⟨none, "idle", none, none, [], 0⟩ with
        polling := ⟨true, 99⟩ } := by
  exact (C3_snapshot_shallow_amended [⟨false, 3000⟩] ⟨none, "idle", none, none, [], 0⟩
    ⟨true, 99⟩ (by decide)).2.2

end Arp
